import Mathlib

/-!
Verification of the NCAA men's soccer roster scraper
(`src/soccer_roster_scraper.py`) against its natural-language
specification.

The development shallowly embeds the parts of the scraper that the
checked properties are about:

* the text normalizer `FieldExtractors.clean_text` /
  `clean_field_labels` (Python `re.sub` calls are embedded as
  purpose-built scanners over `List Char`, one per regular expression,
  mirroring leftmost-match / greedy semantics of the patterns used);
* the field parsers `extract_jersey_number`, `extract_position`,
  `extract_height`, `normalize_academic_year`, `parse_hometown_school`;
* the Sidearm list extractor `StandardScraper._extract_players`, the
  header-aware table extractor `_extract_players_from_table`, the
  PrestoSports extractor `_extract_players_from_presto_table`, and the
  dispatch chain between them (documents are modelled as a structure
  recording, for each template family, the container elements that
  BeautifulSoup queries would return; extractors for template families
  no claim exercises are parameters of the dispatcher);
* the validation scorer `JSScraper._validate_players` (the Python
  float computation `count / total * 100 < threshold` is modelled by
  the exact rational comparison `100 * count < threshold * total`,
  with which it agrees at every roster size the program can encounter);
* the single-team drivers `StandardScraper.scrape_team` and
  `JSScraper.scrape_team`, with HTTP fetching abstracted as an oracle
  from URLs to responses and the list of fetched URLs returned as an
  explicit trace.

Python character classes are modelled over their ASCII meaning
(`\s` = space/tab/newline/CR/FF/VT, `\w` = alphanumeric or
underscore), which is the alphabet the scraper's patterns target.
-/

namespace Soccer

/-! ## Character classes (Python `\s`, `\w` over ASCII) -/

/-- Python regex `\s` restricted to ASCII: space, tab, newline, CR, FF, VT. -/
def isPySpace (c : Char) : Bool :=
  c = ' ' || c = '\t' || c = '\n' || c = '\r' || c = '\x0b' || c = '\x0c'

/-- Python regex `\w` restricted to ASCII: letters, digits, underscore. -/
def isWordChar (c : Char) : Bool :=
  c.isAlpha || c.isDigit || c = '_'

/-! ## Basic list-of-characters utilities shared by the embeddings -/

/-- Python `str.lstrip()` on characters. -/
def lstripL (s : List Char) : List Char := s.dropWhile isPySpace

/-- Python `str.rstrip()` on characters. -/
def rstripL (s : List Char) : List Char :=
  (s.reverse.dropWhile isPySpace).reverse

/-- Python `str.strip()` on characters. -/
def stripL (s : List Char) : List Char := lstripL (rstripL s)

/-- `True` when the text contains two adjacent whitespace characters. -/
def hasDoubleWs : List Char → Bool
  | a :: b :: rest => (isPySpace a && isPySpace b) || hasDoubleWs (b :: rest)
  | _ => false

/-- Helper for whitespace collapsing: `prevWs` records whether the
previously emitted character position ends in whitespace, so that a run
of whitespace emits a single `' '`. -/
def collapseAux : Bool → List Char → List Char
  | _, [] => []
  | prevWs, c :: cs =>
    if isPySpace c then
      if prevWs then collapseAux true cs else ' ' :: collapseAux true cs
    else c :: collapseAux false cs

/-- Python `re.sub(r'\s+', ' ', text.strip())`: strips the ends and
collapses every interior whitespace run to a single space. -/
def collapseWsL (s : List Char) : List Char := collapseAux true (rstripL s)

/-- Case-sensitive test that `pat` is an initial segment of `s`. -/
def startsWithL : List Char → List Char → Bool
  | [], _ => true
  | _ :: _, [] => false
  | p :: ps, c :: cs => p = c && startsWithL ps cs

/-- Case-sensitive substring test (used for the institution indicators;
Python's `indicator in text`). -/
def containsSub (pat : List Char) : List Char → Bool
  | [] => startsWithL pat []
  | c :: cs => startsWithL pat (c :: cs) || containsSub pat cs

end Soccer

namespace Soccer

/-! ## Noise-phrase removal inside `clean_text`

`clean_text` runs
`re.sub(r'\s*(Full Bio|Instagram|Twitter|Opens in a new window).*$', '', cleaned)`
on text whose whitespace has already been collapsed (so it contains no
newline, and the single match extends to the end of the string).  The
leftmost match starts at the first occurrence of one of the phrases,
minus the whitespace run immediately before it; the substitution hence
keeps the text before the first phrase occurrence, with trailing
whitespace removed. -/

/-- The phrase alternatives of the `clean_text` noise pattern. -/
def ctNoisePhrases : List (List Char) :=
  ["Full Bio".data, "Instagram".data, "Twitter".data,
   "Opens in a new window".data]

/-- Does one of the noise phrases start exactly here? -/
def ctNoiseAt (s : List Char) : Bool :=
  ctNoisePhrases.any fun p => startsWithL p s

/-- Text before the first noise-phrase occurrence (`none` if no
occurrence). -/
def findNoiseSplit : List Char → Option (List Char)
  | [] => none
  | c :: cs =>
    if ctNoiseAt (c :: cs) then some []
    else (findNoiseSplit cs).map (c :: ·)

/-- The noise substitution of `clean_text` (on collapsed text). -/
def removeNoiseL (s : List Char) : List Char :=
  match findNoiseSplit s with
  | none => s
  | some pre => rstripL pre

/-! ## Label-prefix stripping (`FieldExtractors.clean_field_labels`)

Each Python pattern is of shape `\bKEY:\s*` or `^KEY\.?:\s*`, applied
with `re.IGNORECASE` and followed by `.strip()`.  A pattern is
represented by its (lower-cased) keyword, whether a `\.?` precedes the
colon, and whether it is anchored at the start of the string. -/

structure LabelPat where
  key : List Char
  dotOpt : Bool
  anchored : Bool

/-- Consume `key` case-insensitively from the front of `s` (`key` is
given lower-cased). -/
def dropCI : List Char → List Char → Option (List Char)
  | [], s => some s
  | _ :: _, [] => none
  | k :: ks, c :: cs => if c.toLower = k then dropCI ks cs else none

/-- The optional `\.?` before the colon: consume a dot when a colon
follows it (the only branch on which the regex can proceed). -/
def dropDotOpt (dotOpt : Bool) (r : List Char) : List Char :=
  if dotOpt then
    match r with
    | '.' :: t => if t.head? = some ':' then t else '.' :: t
    | r' => r'
  else r

/-- The `:\s*` tail of every label pattern: require a colon, then
greedily consume whitespace. -/
def dropColonWs : List Char → Option (List Char)
  | ':' :: t => some (t.dropWhile isPySpace)
  | _ => none

/-- Match `KEY(\.?):\s*` at the start of `s`; on success return the
remainder after the greedily consumed trailing whitespace. -/
def matchLabelAt (p : LabelPat) (s : List Char) : Option (List Char) :=
  if p.key.isEmpty then none
  else
    match dropCI p.key s with
    | none => none
    | some r1 => dropColonWs (dropDotOpt p.dotOpt r1)

/-- `re.sub(pat, '', text)` for a `\bKEY(\.?):\s*` pattern: scan left to
right, replacing every non-overlapping match whose start lies at a word
boundary.  `prevW` records whether the character before the current
position is a word character (at position 0 the scan starts with
`prevW = false`, as `\b` holds at the start of the string before a word
character).  The recursion is driven by a fuel argument so that the
function reduces by iota in the kernel; every step consumes at least
one character, so `s.length` fuel suffices. -/
def subLabelAllF (p : LabelPat) : Nat → Bool → List Char → List Char
  | 0, _, s => s
  | _ + 1, _, [] => []
  | fuel + 1, prevW, c :: cs =>
    if prevW then c :: subLabelAllF p fuel (isWordChar c) cs
    else
      match matchLabelAt p (c :: cs) with
      | some rest => subLabelAllF p fuel false rest
      | none => c :: subLabelAllF p fuel (isWordChar c) cs

def subLabelAll (p : LabelPat) (prevW : Bool) (s : List Char) : List Char :=
  subLabelAllF p s.length prevW s

/-- `re.sub('^KEY(\.?):\s*', '', text)`: with the `^` anchor (and no
`re.MULTILINE`) at most the single match at position 0 is replaced. -/
def subLabelAnchored (p : LabelPat) (s : List Char) : List Char :=
  match matchLabelAt p s with
  | some rest => rest
  | none => s

/-- One `text = re.sub(p, '', text, flags=re.IGNORECASE).strip()` step of
`clean_field_labels`. -/
def labelStep (t : List Char) (p : LabelPat) : List Char :=
  stripL (if p.anchored then subLabelAnchored p t else subLabelAll p false t)

/-- The eleven label patterns of `FieldExtractors.clean_field_labels`,
in source order. -/
def labelPats : List LabelPat :=
  [⟨"class".data, false, false⟩,
   ⟨"hometown".data, false, false⟩,
   ⟨"high school".data, false, false⟩,
   ⟨"previous college".data, false, false⟩,
   ⟨"previous school".data, false, false⟩,
   ⟨"ht".data, true, false⟩,
   ⟨"pos".data, true, false⟩,
   ⟨"major".data, false, false⟩,
   ⟨"high school".data, false, true⟩,
   ⟨"hometown".data, false, true⟩,
   ⟨"no".data, true, true⟩]

/-- `FieldExtractors.clean_field_labels`. -/
def cleanFieldLabelsL (s : List Char) : List Char :=
  if s = [] then s else labelPats.foldl labelStep s

/-- `FieldExtractors.clean_text`: collapse whitespace on the stripped
text, remove UI noise phrases, strip label prefixes. -/
def cleanTextL (s : List Char) : List Char :=
  if s = [] then [] else cleanFieldLabelsL (removeNoiseL (collapseWsL s))

/-- `FieldExtractors.clean_text` on strings. -/
def clean_text (s : String) : String := ⟨cleanTextL s.data⟩

end Soccer

namespace Soccer

/-! ## `FieldExtractors.extract_jersey_number`

The four patterns are tried in source order; each is embedded as a
matcher applied at every start position (`re.search` leftmost-match
semantics).  The greedy quantifiers of these patterns are deterministic
because no quantified class overlaps what must follow it. -/

/-- Case-sensitive literal consumption. -/
def dropExact : List Char → List Char → Option (List Char)
  | [], s => some s
  | _ :: _, [] => none
  | p :: ps, c :: cs => if c = p then dropExact ps cs else none

/-- `re.search` driver: try the matcher at every start position, first
success wins. -/
def reSearch (f : List Char → Option (List Char)) : List Char → Option (List Char)
  | [] => f []
  | c :: cs =>
    match f (c :: cs) with
    | some r => some r
    | none => reSearch f cs

/-- `(\d{1,2})\b`: one or two digits (greedy) followed by a word
boundary.  A two-digit candidate whose boundary fails cannot back off
to one digit, since the second digit is itself a word character. -/
def digits12Bdry : List Char → Option (List Char)
  | [] => none
  | [d1] => if d1.isDigit then some [d1] else none
  | d1 :: d2 :: rest =>
    if d1.isDigit then
      if d2.isDigit then
        if (match rest with | [] => true | x :: _ => !isWordChar x) then
          some [d1, d2]
        else none
      else if !isWordChar d2 then some [d1] else none
    else none

/-- `Jersey Number[:\s]+(\d+)` applied at one position. -/
def jerseyP1At (s : List Char) : Option (List Char) :=
  match dropExact "Jersey Number".data s with
  | none => none
  | some r =>
    let r1 := r.dropWhile fun c => c = ':' || isPySpace c
    if r1.length < r.length then
      let d := r1.takeWhile Char.isDigit
      if d.isEmpty then none else some d
    else none

/-- `#(\d{1,2})\b` applied at one position. -/
def jerseyP2At : List Char → Option (List Char)
  | '#' :: rest => digits12Bdry rest
  | _ => none

/-- `No\.?[:\s]*(\d{1,2})\b` applied at one position. -/
def jerseyP3At (s : List Char) : Option (List Char) :=
  match dropExact "No".data s with
  | none => none
  | some r =>
    let r1 := match r with | '.' :: t => t | t => t
    digits12Bdry (r1.dropWhile fun c => c = ':' || isPySpace c)

/-- `\s+(?=[A-Z])`: at least one whitespace character, the next
character an ASCII capital. -/
def wsThenUpper (t : List Char) : Bool :=
  let t1 := t.dropWhile isPySpace
  decide (t1.length < t.length) &&
    (match t1 with | c :: _ => decide ('A' ≤ c) && decide (c ≤ 'Z') | [] => false)

/-- `\b(\d{1,2})\s+(?=[A-Z])` applied at one position (the caller
checks the boundary). -/
def jerseyP4At : List Char → Option (List Char)
  | [] => none
  | d1 :: rest =>
    if !d1.isDigit then none
    else
      match rest with
      | [] => none
      | d2 :: rest2 =>
        if d2.isDigit then
          if wsThenUpper rest2 then some [d1, d2] else none
        else if wsThenUpper (d2 :: rest2) then some [d1] else none

/-- Scan for pattern 4, tracking whether the previous character is a
word character (for the `\b`). -/
def searchP4 (prevW : Bool) : List Char → Option (List Char)
  | [] => none
  | c :: cs =>
    match (if prevW then none else jerseyP4At (c :: cs)) with
    | some d => some d
    | none => searchP4 (isWordChar c) cs

/-- `FieldExtractors.extract_jersey_number`. -/
def extract_jersey_numberL (s : List Char) : List Char :=
  if s = [] then []
  else
    match reSearch jerseyP1At s with
    | some d => d
    | none =>
      match reSearch jerseyP2At s with
      | some d => d
      | none =>
        match reSearch jerseyP3At s with
        | some d => d
        | none => (searchP4 false s).getD []

/-- `FieldExtractors.extract_jersey_number` on strings. -/
def extract_jersey_number (s : String) : String := ⟨extract_jersey_numberL s.data⟩

/-! ## `FieldExtractors.extract_position` -/

/-- The alternatives of `\b(GK|D|M|F|MF|DF|FW|DEF|MID|FOR)\b`, in
pattern order. -/
def posAbbrevs : List String :=
  ["GK", "D", "M", "F", "MF", "DF", "FW", "DEF", "MID", "FOR"]

/-- Try one abbreviation (case-insensitively) at this position, with a
word boundary after it. -/
def abbrevAt (a : String) (s : List Char) : Bool :=
  match dropCI (a.data.map Char.toLower) s with
  | some rest => match rest with | [] => true | x :: _ => !isWordChar x
  | none => false

/-- Scan for the abbreviation pattern with its leading `\b`; Python's
`.upper()` of the matched text is the abbreviation itself. -/
def searchPos (prevW : Bool) : List Char → Option String
  | [] => none
  | c :: cs =>
    match (if prevW then none
           else posAbbrevs.find? fun a => abbrevAt a (c :: cs)) with
    | some a => some a
    | none => searchPos (isWordChar c) cs

/-- `FieldExtractors.extract_position`. -/
def extract_position (s : String) : String :=
  if s.data = [] then ""
  else
    match searchPos false s.data with
    | some pos =>
      if pos = "DEF" ∨ pos = "DF" then "D"
      else if pos = "MID" ∨ pos = "MF" then "M"
      else if pos = "FOR" ∨ pos = "FW" then "F"
      else pos
    | none =>
      let up := s.data.map Char.toUpper
      if containsSub "GOALKEEPER".data up || containsSub "GOALIE".data up then "GK"
      else if containsSub "DEFENDER".data up || containsSub "DEFENCE".data up ||
          containsSub "DEFENSE".data up then "D"
      else if containsSub "MIDFIELDER".data up || containsSub "MIDFIELD".data up then "M"
      else if containsSub "FORWARD".data up || containsSub "STRIKER".data up then "F"
      else ""

end Soccer

namespace Soccer

/-! ## `FieldExtractors.extract_height` -/

/-- The prime characters accepted before the inches part (`['′]`). -/
def isPrime (c : Char) : Bool := c = '\'' || c = '′'

/-- The quote characters accepted after the inches part (`["″']`). -/
def isQuote (c : Char) : Bool := c = '"' || c = '″' || c = '\''

/-- Split off the longest prefix satisfying `p` (`List.span`). -/
def spanL (p : Char → Bool) (s : List Char) : List Char × List Char :=
  (s.takeWhile p, s.dropWhile p)

/-- The optional `(?:\s*/\s*\d+\.\d+m)` metric tail; returns the
consumed characters, or `[]` when the group does not match (it is
optional). -/
def heightMetricTail (s : List Char) : List Char :=
  let (w1, r1) := spanL isPySpace s
  match r1 with
  | '/' :: r2 =>
    let (w2, r3) := spanL isPySpace r2
    let (d1, r4) := spanL Char.isDigit r3
    if d1.isEmpty then []
    else
      match r4 with
      | '.' :: r5 =>
        let (d2, r6) := spanL Char.isDigit r5
        if d2.isEmpty then []
        else
          match r6 with
          | 'm' :: _ => w1 ++ '/' :: w2 ++ d1 ++ '.' :: d2 ++ ['m']
          | _ => []
      | _ => []
  | _ => []

/-- `\d+['′]\s*\d+["″']{1,2}` (the shared core of the first two height
patterns) applied at one position; `withMetric` adds the optional
metric tail of pattern 1. -/
def heightImperialAt (withMetric : Bool) (s : List Char) : Option (List Char) :=
  let (d1, r1) := spanL Char.isDigit s
  if d1.isEmpty then none
  else
    match r1 with
    | q :: r2 =>
      if isPrime q then
        let (w, r3) := spanL isPySpace r2
        let (d2, r4) := spanL Char.isDigit r3
        if d2.isEmpty then none
        else
          let core := d1 ++ q :: w ++ d2
          match r4 with
          | q1 :: q2 :: r5 =>
            if isQuote q1 then
              if isQuote q2 then
                some (core ++ [q1, q2] ++ if withMetric then heightMetricTail r5 else [])
              else
                some (core ++ [q1] ++ if withMetric then heightMetricTail (q2 :: r5) else [])
            else none
          | [q1] => if isQuote q1 then some (core ++ [q1]) else none
          | [] => none
      else none
    | [] => none

/-- `(\d+-\d+)` applied at one position. -/
def heightDashAt (s : List Char) : Option (List Char) :=
  let (d1, r1) := spanL Char.isDigit s
  if d1.isEmpty then none
  else
    match r1 with
    | '-' :: r2 =>
      let (d2, _) := spanL Char.isDigit r2
      if d2.isEmpty then none else some (d1 ++ '-' :: d2)
    | _ => none

/-- `(\d+\.\d+m)` applied at one position. -/
def heightMetricAt (s : List Char) : Option (List Char) :=
  let (d1, r1) := spanL Char.isDigit s
  if d1.isEmpty then none
  else
    match r1 with
    | '.' :: r2 =>
      let (d2, r3) := spanL Char.isDigit r2
      if d2.isEmpty then none
      else
        match r3 with
        | 'm' :: _ => some (d1 ++ '.' :: d2 ++ ['m'])
        | _ => none
    | _ => none

/-- `Height:\s*([^\,\n]+)` applied at one position. -/
def heightLabelAt (s : List Char) : Option (List Char) :=
  match dropExact "Height:".data s with
  | none => none
  | some r =>
    let r1 := r.dropWhile isPySpace
    let cap := r1.takeWhile fun c => !(c = ',' || c = '\n')
    if cap.isEmpty then none else some cap

/-- `FieldExtractors.extract_height`: five patterns in source order,
first match wins, the captured group is returned `.strip()`ped. -/
def extract_height (s : String) : String :=
  if s.data = [] then ""
  else
    match reSearch (heightImperialAt true) s.data with
    | some m => ⟨stripL m⟩
    | none =>
      match reSearch (heightImperialAt false) s.data with
      | some m => ⟨stripL m⟩
      | none =>
        match reSearch heightDashAt s.data with
        | some m => ⟨stripL m⟩
        | none =>
          match reSearch heightMetricAt s.data with
          | some m => ⟨stripL m⟩
          | none =>
            match reSearch heightLabelAt s.data with
            | some m => ⟨stripL m⟩
            | none => ""

/-! ## `FieldExtractors.normalize_academic_year` -/

/-- The academic-year abbreviation dictionary, in source order. -/
def yearMap : List (String × String) :=
  [("Fr", "Freshman"), ("Fr.", "Freshman"), ("FR", "Freshman"),
   ("So", "Sophomore"), ("So.", "Sophomore"), ("SO", "Sophomore"),
   ("Jr", "Junior"), ("Jr.", "Junior"), ("JR", "Junior"),
   ("Sr", "Senior"), ("Sr.", "Senior"), ("SR", "Senior"),
   ("Gr", "Graduate"), ("Gr.", "Graduate"), ("GR", "Graduate"),
   ("R-Fr", "Redshirt Freshman"), ("R-Fr.", "Redshirt Freshman"),
   ("R-So", "Redshirt Sophomore"), ("R-So.", "Redshirt Sophomore"),
   ("R-Jr", "Redshirt Junior"), ("R-Jr.", "Redshirt Junior"),
   ("R-Sr", "Redshirt Senior"), ("R-Sr.", "Redshirt Senior"),
   ("1st", "Freshman"), ("First", "Freshman"),
   ("2nd", "Sophomore"), ("Second", "Sophomore"),
   ("3rd", "Junior"), ("Third", "Junior"),
   ("4th", "Senior"), ("Fourth", "Senior")]

/-- `FieldExtractors.normalize_academic_year`: dictionary lookup on the
stripped text; unmapped input is returned unchanged. -/
def normalize_academic_year (s : String) : String :=
  if s.data = [] then ""
  else
    match yearMap.find? fun kv => kv.1 = (⟨stripL s.data⟩ : String) with
    | some kv => kv.2
    | none => s

end Soccer

namespace Soccer

/-! ## `FieldExtractors.parse_hometown_school`

Its first step is
`re.sub(r'\s*(Instagram|Twitter|Opens in a new window).*$', '', text)`
on the raw text, which may contain newlines.  Without `re.MULTILINE`,
`.` does not match a newline and `$` matches only at the end of the
string or just before a terminal newline, so a phrase occurrence can
anchor the match only if the text after it contains no newline, or
contains a single newline as the very last character (in which case the
newline survives the substitution).  The subsequent whitespace
collapsing and stripping is shared with `clean_text`. -/

/-- The phrase alternatives of the hometown noise pattern. -/
def hsNoisePhrases : List (List Char) :=
  ["Instagram".data, "Twitter".data, "Opens in a new window".data]

/-- The remainder after a noise phrase starting at this position, if
any (the phrases start with pairwise distinct letters, so at most one
applies). -/
def hsPhraseTailAt (s : List Char) : Option (List Char) :=
  hsNoisePhrases.foldr (fun p acc =>
    match dropExact p s with
    | some t => some t
    | none => acc) none

/-- Can `.*$` complete after the phrase?  `some keepNl` when yes, with
`keepNl` true when the terminal newline survives. -/
def viableTail (t : List Char) : Option Bool :=
  if !t.contains '\n' then some false
  else if t.getLast? = some '\n' && !(t.dropLast).contains '\n' then some true
  else none

/-- Scan for the first viable noise-phrase occurrence; return the text
before it and whether a terminal newline survives. -/
def hsNoiseSplit : List Char → Option (List Char × Bool)
  | [] => none
  | c :: cs =>
    match (match hsPhraseTailAt (c :: cs) with
           | some t => viableTail t
           | none => none) with
    | some keep => some ([], keep)
    | none => (hsNoiseSplit cs).map fun pk => (c :: pk.1, pk.2)

/-- The hometown noise substitution. -/
def removeNoiseHSL (s : List Char) : List Char :=
  match hsNoiseSplit s with
  | none => s
  | some (pre, keepNl) => rstripL pre ++ if keepNl then ['\n'] else []

/-- Python `text.split('/')`. -/
def splitSlash : List Char → List (List Char)
  | [] => [[]]
  | c :: cs =>
    if c = '/' then [] :: splitSlash cs
    else
      match splitSlash cs with
      | p :: rest => (c :: p) :: rest
      | [] => [[c]]

/-- The institution indicators of `parse_hometown_school`. -/
def collegeIndicators : List String :=
  ["University", "College", "State", "Tech", "Institute"]

/-- The result record of `parse_hometown_school`. -/
structure HometownSchool where
  hometown : String
  high_school : String
  previous_school : String
deriving DecidableEq, Repr

/-- `FieldExtractors.parse_hometown_school`. -/
def parse_hometown_schoolL (s : List Char) : HometownSchool :=
  if s = [] then ⟨"", "", ""⟩
  else
    let t := collapseWsL (removeNoiseHSL s)
    if t.contains '/' then
      let parts := (splitSlash t).map stripL
      let hometown : List Char := (parts.head?).getD []
      let hsps : List Char × List Char :=
        match parts.get? 1 with
        | some p1 =>
          if collegeIndicators.any fun i => containsSub i.data p1 then ([], p1)
          else (p1, [])
        | none => ([], [])
      let ps : List Char :=
        match parts.get? 2 with
        | some p2 => p2
        | none => hsps.2
      ⟨⟨hometown⟩, ⟨hsps.1⟩, ⟨ps⟩⟩
    else ⟨⟨t⟩, "", ""⟩

/-- `FieldExtractors.parse_hometown_school` on strings. -/
def parse_hometown_school (s : String) : HometownSchool :=
  parse_hometown_schoolL s.data

end Soccer

namespace Soccer

/-! ## Data model: `Player` and team context

`team_id`, `team`, `season`, `division` are the caller-supplied
context; the remaining fields are extracted.  `domain` in the context
stands for the host computed from `base_url` via `tldextract`
(`subdomain.domain.suffix`), an external collaborator of the core. -/

structure Player where
  team_id : Nat
  team : String
  season : String
  division : String
  name : String := ""
  jersey : String := ""
  position : String := ""
  height : String := ""
  year : String := ""
  major : String := ""
  hometown : String := ""
  high_school : String := ""
  previous_school : String := ""
  url : String := ""
deriving DecidableEq, Repr

structure TeamCtx where
  team_id : Nat
  team_name : String
  season : String
  division : String
  domain : String
deriving DecidableEq, Repr

/-! ## Profile-URL resolution (shared by the extractors) -/

/-- The href-to-absolute-URL rule of the Sidearm extractors:
`href if href.startswith('http') else f"https://{domain}{href}" if
href.startswith('/') else f"https://{domain}/{href}"`. -/
def resolveHref (domain href : String) : String :=
  if startsWithL "http".data href.data then href
  else if startsWithL "/".data href.data then "https://" ++ domain ++ href
  else "https://" ++ domain ++ "/" ++ href

/-- `URLBuilder.extract_base_url`: `https://` plus the
`tldextract`-derived host of the team URL. -/
def extract_base_url (domain : String) : String := "https://" ++ domain

/-- The PrestoSports href rule:
`href if href.startswith('http') else extract_base_url(base_url) + href`. -/
def resolveHrefPresto (domain href : String) : String :=
  if startsWithL "http".data href.data then href
  else extract_base_url domain ++ href

/-! ## The Sidearm list extractor (`StandardScraper._extract_players`,
item loop)

A `<li class='sidearm-roster-player'>` item is modelled by the results
of the BeautifulSoup queries the loop performs on it: the text of each
field `<span>` when present, and the name heading (`h3` or `h2`) with
its optional `<a href=...>` child. -/

/-- An anchor with a guaranteed `href` (`find('a', href=True)`). -/
structure HrefLink where
  text : String
  href : String
deriving DecidableEq, Repr

/-- The `h3`/`h2` name heading of a roster item. -/
structure NameElem where
  text : String
  link : Option HrefLink
deriving DecidableEq, Repr

/-- One `li.sidearm-roster-player` item, as seen by the loop's queries. -/
structure SidearmItem where
  jerseyText : Option String := none
  nameElem : Option NameElem := none
  posText : Option String := none
  heightText : Option String := none
  yearText : Option String := none
  majorText : Option String := none
  hometownText : Option String := none
  highSchoolText : Option String := none
  prevSchoolText : Option String := none
deriving DecidableEq, Repr

/-- The body of the per-item loop: `none` models the
`logger.warning(...able); continue` taken when no `h3`/`h2` name element
exists.  All other fields default to the empty string when their
element is missing. -/
def extractSidearmItem (ctx : TeamCtx) (it : SidearmItem) : Option Player :=
  match it.nameElem with
  | none => none
  | some ne =>
    let nameUrl : String × String :=
      match ne.link with
      | some l => (clean_text l.text, resolveHref ctx.domain l.href)
      | none => (clean_text ne.text, "")
    some
      { team_id := ctx.team_id
        team := ctx.team_name
        season := ctx.season
        division := ctx.division
        name := nameUrl.1
        jersey := (it.jerseyText.map clean_text).getD ""
        position := (it.posText.map extract_position).getD ""
        height := (it.heightText.map extract_height).getD ""
        year := (it.yearText.map normalize_academic_year).getD ""
        major := (it.majorText.map clean_text).getD ""
        hometown := (it.hometownText.map clean_text).getD ""
        high_school := (it.highSchoolText.map clean_text).getD ""
        previous_school := (it.prevSchoolText.map clean_text).getD ""
        url := nameUrl.2 }

/-- The item loop of `StandardScraper._extract_players` over the
`li.sidearm-roster-player` items. -/
def extractSidearmList (ctx : TeamCtx) (items : List SidearmItem) : List Player :=
  items.filterMap (extractSidearmItem ctx)

end Soccer

namespace Soccer

/-! ## The header-aware table extractor
(`StandardScraper._extract_players_from_table`)

A table is modelled by the BeautifulSoup query results the function
uses: whether a `<thead>` exists, the rows inside it, all `<tr>` rows,
the rows carrying class `s-table-body__row`, and the
`th.s-table-header__column` header cells.  A row is its list of cells
(`td` and `th` alike), a cell its text and optional
`find('a', href=True)` anchor. -/

structure TCell where
  text : String
  link : Option HrefLink := none
deriving DecidableEq, Repr

structure TRow where
  cells : List TCell
deriving DecidableEq, Repr

structure GTable where
  theadPresent : Bool := false
  theadRows : List TRow := []
  rows : List TRow := []
  sRows : List TRow := []
  sHeaderCells : List TCell := []
  tbodyPresent : Bool := false
  tbodyRows : List TRow := []
deriving DecidableEq, Repr

/-- The header row a generic table is inspected by: the first `tr` of
the `thead` when a `thead` exists, else the table's first `tr`. -/
def chooseHeaderRow (t : GTable) : Option TRow :=
  if t.theadPresent then t.theadRows.head? else t.rows.head?

/-- Python's lower-casing of header text (ASCII). -/
def lowerStr (s : String) : String := ⟨s.data.map Char.toLower⟩

/-- `' '.join(cell.get_text().strip().lower() for cell in cells)`. -/
def joinedHeaderText (cells : List TCell) : List Char :=
  match cells.map fun c => (⟨stripL c.text.data⟩ : String).data.map Char.toLower with
  | [] => []
  | x :: xs => xs.foldl (fun acc y => acc ++ ' ' :: y) x

/-- Roster-likeness check of the generic-table scan: the header text
contains `name` and (`position` or `pos`). -/
def hasRosterHeaders (t : GTable) : Bool :=
  match chooseHeaderRow t with
  | none => false
  | some hr =>
    let ht := joinedHeaderText hr.cells
    containsSub "name".data ht &&
      (containsSub "position".data ht || containsSub "pos".data ht)

/-- The column map built from the header cells; later columns
overwrite earlier ones mapped to the same field. -/
structure HeaderMap where
  name : Option Nat := none
  jersey : Option Nat := none
  position : Option Nat := none
  height : Option Nat := none
  year : Option Nat := none
  hometown : Option Nat := none
  high_school : Option Nat := none
  previous_school : Option Nat := none
deriving DecidableEq, Repr

/-- One header cell of the `elif` chain of the table extractor's
header mapping. -/
def headerMapStep (hm : HeaderMap) (i : Nat) (headerText : String) : HeaderMap :=
  let ht := (lowerStr ⟨stripL headerText.data⟩).data
  if containsSub "name".data ht && !containsSub "first".data ht then
    { hm with name := some i }
  else if containsSub "no".data ht || containsSub "#".data ht ||
      containsSub "jersey".data ht || containsSub "number".data ht ||
      containsSub "num".data ht then
    { hm with jersey := some i }
  else if containsSub "pos".data ht then { hm with position := some i }
  else if containsSub "ht".data ht || containsSub "height".data ht then
    { hm with height := some i }
  else if containsSub "yr".data ht || containsSub "year".data ht ||
      containsSub "class".data ht then
    { hm with year := some i }
  else if containsSub "hometown".data ht || containsSub "home".data ht then
    { hm with hometown := some i }
  else if containsSub "high school".data ht || containsSub "highschool".data ht then
    { hm with high_school := some i }
  else if containsSub "previous".data ht then { hm with previous_school := some i }
  else hm

/-- Build the header map over the indexed header cells. -/
def buildHeaderMap (headers : List TCell) : HeaderMap :=
  (headers.enum.foldl (fun hm ci => headerMapStep hm ci.1 ci.2.text) {})

/-- Read an optional column of a row.  `none` propagates the
`IndexError` a missing cell raises in Python (caught by the per-row
`except`, which skips the row); a column absent from the header map
yields the empty-string default. -/
def cellField (cells : List TCell) : Option Nat → (TCell → String) → Option String
  | none, _ => some ""
  | some i, f => (cells.get? i).map f

/-- Python `'␣/␣' in s` / `s.split('␣/␣', 1)` for the combined
hometown column: split at the first occurrence of `" / "`. -/
def splitHomeHS : List Char → Option (List Char × List Char)
  | [] => none
  | c :: cs =>
    match dropExact " / ".data (c :: cs) with
    | some rest => some ([], rest)
    | none => (splitHomeHS cs).map fun pr => (c :: pr.1, pr.2)

/-- The per-row body of `_extract_players_from_table`; `none` models
`continue` (short row, empty/`null` name, or an out-of-range column
index caught by the `except`). -/
def extractTableRow (ctx : TeamCtx) (hm : HeaderMap) (row : TRow) : Option Player :=
  if row.cells.length < 3 then none
  else
    match (match hm.name with
           | none => some ("", "")
           | some i =>
             (row.cells.get? i).map fun (c : TCell) =>
               match c.link with
               | some l => (clean_text l.text, resolveHref ctx.domain l.href)
               | none => (clean_text c.text, "")) with
    | none => none
    | some nameUrl =>
      if nameUrl.1 = "" ∨ lowerStr nameUrl.1 = "null" then none
      else
        match cellField row.cells hm.jersey (fun c => clean_text c.text),
            cellField row.cells hm.position (fun c => extract_position c.text),
            cellField row.cells hm.height (fun c => extract_height c.text),
            cellField row.cells hm.year (fun c => normalize_academic_year c.text),
            cellField row.cells hm.hometown (fun c => clean_text c.text),
            cellField row.cells hm.previous_school (fun c => clean_text c.text),
            (match hm.high_school with
             | none => some none
             | some i => (row.cells.get? i).map fun (c : TCell) => some (clean_text c.text)) with
        | some jersey, some position, some height, some year, some homeHS,
            some prevSchool, some hsOverride =>
          let homePair : String × String :=
            match splitHomeHS homeHS.data with
            | some pr => (⟨pr.1⟩, ⟨pr.2⟩)
            | none => (homeHS, "")
          some
            { team_id := ctx.team_id
              team := ctx.team_name
              season := ctx.season
              division := ctx.division
              name := nameUrl.1
              jersey := jersey
              position := position
              height := height
              year := year
              major := ""
              hometown := homePair.1
              high_school := hsOverride.getD homePair.2
              previous_school := prevSchool
              url := nameUrl.2 }
        | _, _, _, _, _, _, _ => none

/-- `StandardScraper._extract_players_from_table` over the document's
tables: prefer the table containing `s-table-body__row` rows; else the
first table with roster-like headers; else no roster table, empty
result. -/
def extractFromTable (ctx : TeamCtx) (tables : List GTable) : List Player :=
  match tables.find? fun t => !t.sRows.isEmpty with
  | some t =>
    if t.sHeaderCells.isEmpty then []
    else
      let hm := buildHeaderMap t.sHeaderCells
      t.sRows.filterMap (extractTableRow ctx hm)
  | none =>
    match tables.find? hasRosterHeaders with
    | none => []
    | some t =>
      match chooseHeaderRow t with
      | none => []
      | some hr =>
        if hr.cells.isEmpty then []
        else
          let hm := buildHeaderMap hr.cells
          let bodyRows :=
            if t.tbodyPresent then t.tbodyRows
            else if t.rows.length > 1 then t.rows.drop 1 else []
          bodyRows.filterMap (extractTableRow ctx hm)

end Soccer

namespace Soccer

/-! ## The PrestoSports extractor
(`StandardScraper._extract_players_from_presto_table`)

A row is its `td[data-label]` cells and the optional `th[data-label]`
name header.  A cell's `text` stands for its text content with nested
`span.label` elements removed (the decompose step of the source); an
anchor's `href` is optional (`find('a')` does not require one). -/

structure Anchor where
  text : String
  href : Option String := none
deriving DecidableEq, Repr

structure PCell where
  label : String
  text : String
  anchors : List Anchor := []
deriving DecidableEq, Repr

structure PTh where
  label : String
  text : String
  anchors : List Anchor := []
deriving DecidableEq, Repr

structure PrestoRow where
  cells : List PCell := []
  nameTh : Option PTh := none
deriving DecidableEq, Repr

/-- `label.strip().lower()`. -/
def normLabel (s : String) : String := lowerStr ⟨stripL s.data⟩

/-- Python dict lookup by key presence (later insertions win). -/
def dictGet (entries : List (String × String)) (k : String) : Option String :=
  (entries.reverse.find? fun e => e.1 = k).map fun e => e.2

/-- `data.get(k1, data.get(k2, data.get(k3, '')))`. -/
def dictGet3 (entries : List (String × String)) (k1 k2 k3 : String) : String :=
  ((dictGet entries k1).orElse fun _ =>
    (dictGet entries k2).orElse fun _ => dictGet entries k3).getD ""

/-- `data.get(k1, data.get(k2, ''))`. -/
def dictGet2 (entries : List (String × String)) (k1 k2 : String) : String :=
  ((dictGet entries k1).orElse fun _ => dictGet entries k2).getD ""

/-- The data dictionary of one Presto row: the labelled cells in
order, then the `th[data-label]` override, whose value is the first
anchor with non-empty cleaned text, else the header's own text. -/
def prestoRowDict (row : PrestoRow) : List (String × String) :=
  let base := row.cells.map fun c => (normLabel c.label, clean_text c.text)
  match row.nameTh with
  | none => base
  | some th =>
    let v :=
      match th.anchors.find? fun a => clean_text a.text ≠ "" with
      | some a => clean_text a.text
      | none => clean_text th.text
    base ++ [(normLabel th.label, v)]

/-- The name anchor of a Presto row: the name header's first anchor
when a header exists; else the first anchor of a labelled cell whose
dictionary value equals the name. -/
def prestoNameLink (row : PrestoRow) (entries : List (String × String))
    (name : String) : Option Anchor :=
  match row.nameTh with
  | some th => th.anchors.head?
  | none =>
    (row.cells.find? fun c =>
      dictGet entries (normLabel c.label) = some name ∧ !c.anchors.isEmpty).bind
      fun c => c.anchors.head?

/-- The per-row body of `_extract_players_from_presto_table`; `none`
models `continue`. -/
def extractPrestoRow (ctx : TeamCtx) (row : PrestoRow) : Option Player :=
  if row.cells.length < 3 then none
  else
    let data := prestoRowDict row
    let name := (dictGet data "name").getD ""
    if name = "" then none
    else
      let jersey := dictGet3 data "no." "no" "#"
      let position := dictGet3 data "pos." "pos" "position"
      let height := extract_height (dictGet3 data "ht." "ht" "height")
      let year := normalize_academic_year (dictGet3 data "cl." "class" "year")
      let hometownRaw := dictGet3 data "hometown/last school" "hometown" "hometown/high school"
      let highSchool0 := dictGet2 data "high school" "last school"
      let homePair : String × String :=
        if hometownRaw ≠ "" ∧ hometownRaw.data.contains '/' then
          let parts := splitSlash hometownRaw.data
          (⟨stripL ((parts.head?).getD [])⟩,
           if highSchool0 = "" then
             match parts.get? 1 with
             | some p1 => ⟨stripL p1⟩
             | none => ""
           else highSchool0)
        else (hometownRaw, highSchool0)
      let prevSchool := dictGet2 data "previous school" "last school"
      let url : String :=
        match prestoNameLink row data name with
        | some a =>
          match a.href with
          | some h => resolveHrefPresto ctx.domain h
          | none => ""
        | none => ""
      some
        { team_id := ctx.team_id
          team := ctx.team_name
          season := ctx.season
          division := ctx.division
          name := name
          jersey := jersey
          position := position
          height := height
          year := year
          major := ""
          hometown := homePair.1
          high_school := homePair.2
          previous_school := prevSchool
          url := url }

/-- `_extract_players_from_presto_table` over all document rows. -/
def extractPresto (ctx : TeamCtx) (rows : List PrestoRow) : List Player :=
  rows.filterMap (extractPrestoRow ctx)

end Soccer

namespace Soccer

/-! ## Documents and the dispatch chain of
`StandardScraper._extract_players`

A parsed document is modelled by the container elements each template
check of `_extract_players` queries.  Template families whose
extractors no checked property exercises (`sidearm-roster-list-item`,
data-field tables, `mod-roster`, the Kentucky `players-table`,
`s-person-card`, WMT `roster__item`, WordPress `person__item`) carry
their containers as opaque subtree stand-ins; the dispatcher only
tests their presence, and their extraction routines are parameters of
the dispatcher (`SubExtractors`).  The `table--roster` check of the
source changes only logging: both its branch and the final fallback
call `_extract_players_from_table` on the whole document. -/

/-- Stand-in for an unmodelled DOM subtree. -/
structure DomBlob where
  raw : String := ""
deriving DecidableEq, Repr

structure Doc where
  /-- `li.sidearm-roster-player` items. -/
  sidearmPlayers : List SidearmItem := []
  /-- `li.sidearm-roster-list-item` items (alternate Sidearm format). -/
  sidearmListItems : List DomBlob := []
  /-- a first `table` with class containing `table` has a
  `th[data-field-label]` (Bridgeport style). -/
  hasDataFieldTable : Bool := false
  /-- a `div.mod-roster` containing a `table` exists (Emory & Henry
  style; a `mod-roster` without a table falls through silently). -/
  hasModRosterTable : Bool := false
  /-- a `table#players-table__general` exists (Kentucky style). -/
  hasKentuckyTable : Bool := false
  /-- all `tr` rows with their `td[data-label]` cells (PrestoSports). -/
  prestoRows : List PrestoRow := []
  /-- `div.s-person-card` cards. -/
  personCards : List DomBlob := []
  /-- `div.roster__item` items (WMT Digital). -/
  wmtItems : List DomBlob := []
  /-- `li.person__item` items (custom WordPress). -/
  wordpressItems : List DomBlob := []
  /-- the tables of the document, for `_extract_players_from_table`. -/
  tables : List GTable := []
deriving DecidableEq, Repr

/-- The extraction routines of the template families no checked
property exercises, as parameters of the dispatcher. -/
structure SubExtractors where
  fromListItems : TeamCtx → List DomBlob → List Player
  fromDataFieldTable : TeamCtx → Doc → List Player
  fromGenericRosterTable : TeamCtx → Doc → List Player
  fromKentuckyTable : TeamCtx → Doc → List Player
  fromCards : TeamCtx → List DomBlob → List Player
  fromWmt : TeamCtx → List DomBlob → List Player
  fromWordpress : TeamCtx → List DomBlob → List Player

/-- `StandardScraper._extract_players`: the template-dispatch chain in
source order, ending in the table fallback. -/
def extract_players (sub : SubExtractors) (ctx : TeamCtx) (doc : Doc) : List Player :=
  if !doc.sidearmPlayers.isEmpty then extractSidearmList ctx doc.sidearmPlayers
  else if !doc.sidearmListItems.isEmpty then sub.fromListItems ctx doc.sidearmListItems
  else if doc.hasDataFieldTable then sub.fromDataFieldTable ctx doc
  else if doc.hasModRosterTable then sub.fromGenericRosterTable ctx doc
  else if doc.hasKentuckyTable then sub.fromKentuckyTable ctx doc
  else if doc.prestoRows.any fun r => !r.cells.isEmpty then extractPresto ctx doc.prestoRows
  else if !doc.personCards.isEmpty then sub.fromCards ctx doc.personCards
  else if !doc.wmtItems.isEmpty then sub.fromWmt ctx doc.wmtItems
  else if !doc.wordpressItems.isEmpty then sub.fromWordpress ctx doc.wordpressItems
  else extractFromTable ctx doc.tables

/-! ## The validation scorer (`JSScraper._validate_players`)

The source computes each coverage as the float
`count / total * 100` and compares it with `< 80` / `< 70`.  The
embedding uses the exact rational comparison `100 * count < t * total`,
with which the double-precision computation agrees at every roster
size the scraper can encounter (the quotients land on the threshold
exactly only when `100*count = t*total`, where both round to the
threshold value). -/

/-- Records with a truthy (non-empty) value of the given field. -/
def countField (players : List Player) (f : Player → String) : Nat :=
  players.countP fun p => f p ≠ ""

/-- `JSScraper._validate_players`. -/
def validate_players (players : List Player) : Bool :=
  if players.isEmpty then false
  else
    let total := players.length
    if 100 * countField players (·.name) < 80 * total then false
    else if 100 * countField players (·.jersey) < 80 * total then false
    else if 100 * countField players (·.position) < 70 * total then false
    else if 100 * countField players (·.year) < 70 * total then false
    else true

end Soccer

namespace Soccer

/-! ## URL construction (`URLBuilder`, `TeamConfig`, season-range
alternatives) -/

/-- Python `str.rstrip('/')`. -/
def rstripSlash (s : List Char) : List Char :=
  (s.reverse.dropWhile fun c => c = '/').reverse

/-- Python `str.replace(pat, repl)` for a non-empty literal `pat`:
replace every non-overlapping occurrence, left to right (fuel-driven;
a non-empty pattern consumes at least one character per match, so
`s.length` fuel suffices). -/
def replaceAllF (pat repl : List Char) : Nat → List Char → List Char
  | 0, s => s
  | _ + 1, [] => []
  | fuel + 1, c :: cs =>
    match dropExact pat (c :: cs) with
    | some rest => repl ++ replaceAllF pat repl fuel rest
    | none => c :: replaceAllF pat repl fuel cs

def replaceAll (pat repl : List Char) (s : List Char) : List Char :=
  if pat.isEmpty then s else replaceAllF pat repl s.length s

/-- Python `int(text)` as used on season strings: optional sign after
stripped whitespace, then decimal digits. -/
def pyIntOpt (s : String) : Option Int :=
  let t := stripL s.data
  let (sgn, ds) : Int × List Char :=
    match t with
    | '-' :: rest => (-1, rest)
    | '+' :: rest => (1, rest)
    | rest => (1, rest)
  if ds.isEmpty ∨ ds.any fun c => !c.isDigit then none
  else some (sgn * (ds.foldl (fun acc c => 10 * acc + (c.toNat - '0'.toNat)) 0 : Nat))

/-- Python `str(...)[-2:]`. -/
def lastTwo (s : String) : String := ⟨s.data.drop (s.data.length - 2)⟩

/-- `f"{year}-{str(year + 1)[-2:]}"`. -/
def seasonRangeOf (year : Int) : String :=
  toString year ++ "-" ++ lastTwo (toString (year + 1))

/-- Python `str.split(delim)` for a one-character delimiter. -/
def splitOnChar (d : Char) : List Char → List (List Char)
  | [] => [[]]
  | c :: cs =>
    if c = d then [] :: splitOnChar d cs
    else
      match splitOnChar d cs with
      | p :: rest => (c :: p) :: rest
      | [] => [[c]]

/-- The year token of the `clemson_roster` / `kentucky_season`
formats: the part after the first `-` of a range (two digits get a
`20` prefix), else the season itself. -/
def seasonEndYear (season : String) : String :=
  if season.data.contains '-' then
    let y : List Char := ((splitOnChar '-' season.data).get? 1).getD []
    if y.length = 2 then ⟨'2' :: '0' :: y⟩ else ⟨y⟩
  else season

/-- `URLBuilder.build_roster_url`. -/
def build_roster_url (base_url season url_format : String) : String :=
  let base : String := ⟨rstripSlash base_url.data⟩
  if url_format = "default" then base ++ "/roster/" ++ season
  else if url_format = "msoc_index" then
    if containsSub "/index".data base_url.data then
      ⟨replaceAll "/index".data ("/roster/" ++ season).data base.data⟩
    else base ++ "/roster/" ++ season
  else if url_format = "msoc_plain" then base ++ "/roster/" ++ season
  else if url_format = "ucf_table" then
    base ++ "/roster/season/" ++ season ++ "?view=table"
  else if url_format = "virginia_season" then
    match pyIntOpt season with
    | some y => base ++ "/roster/season/" ++ seasonRangeOf y ++ "/"
    | none => base ++ "/roster/season/" ++ season ++ "/"
  else if url_format = "clemson_roster" then
    base ++ "/roster/season/" ++ seasonEndYear season ++ "/?view=table"
  else if url_format = "kentucky_season" then
    base ++ "/roster/season/" ++ seasonEndYear season ++ "/"
  else if url_format = "msoc_season_range" then
    let cleanUrl : String := ⟨replaceAll "/index".data [] base.data⟩
    match pyIntOpt season with
    | some y => cleanUrl ++ "/" ++ seasonRangeOf y ++ "/roster"
    | none => cleanUrl ++ "/" ++ season ++ "/roster"
  else base ++ "/roster/" ++ season

/-- `StandardScraper._build_season_range_url`. -/
def std_season_range_url (base_url season : String) : String :=
  let base : String := ⟨rstripSlash base_url.data⟩
  match pyIntOpt season with
  | some y => base ++ "/" ++ seasonRangeOf y ++ "/roster"
  | none => base ++ "/" ++ season ++ "/roster"

/-- `JSScraper._build_season_range_url` (additionally drops a
trailing `/index`). -/
def js_season_range_url (base_url season : String) : String :=
  let b1 := rstripSlash base_url.data
  let base : String :=
    if startsWithL "/index".data (b1.reverse.take 6).reverse ∧ 6 ≤ b1.length then
      ⟨b1.take (b1.length - 6)⟩
    else ⟨b1⟩
  match pyIntOpt season with
  | some y => base ++ "/" ++ seasonRangeOf y ++ "/roster"
  | none => base ++ "/" ++ season ++ "/roster"

/-- `TeamConfig.TEAM_CONFIGS`, projected to the URL formats. -/
def teamConfigs : List (Nat × String) :=
  [(14, "default"), (72, "default"), (74, "msoc_season_range"),
   (128, "ucf_table"), (147, "clemson_roster"), (216, "msoc_season_range"),
   (248, "default"), (334, "kentucky_season"), (513, "virginia_season"),
   (648, "kentucky_season"), (1023, "msoc_season_range"), (457, "default"),
   (523, "ucf_table"), (539, "ucf_table"), (630, "ucf_table"),
   (674, "ucf_table"), (742, "ucf_table"), (746, "virginia_season"),
   (813, "default"), (1000, "msoc_season_range"), (1356, "ucf_table"),
   (186, "msoc_season_range"), (8956, "msoc_season_range")]

/-- `TeamConfig.get_url_format`. -/
def get_url_format (team_id : Nat) (team_url : String) : String :=
  match teamConfigs.find? fun e => e.1 = team_id with
  | some e => e.2
  | none =>
    if team_url ≠ "" then
      if containsSub "/sports/msoc/index".data team_url.data ||
          containsSub "/Sports/msoc".data team_url.data then "msoc_index"
      else if containsSub "/sports/msoc".data team_url.data then "msoc_plain"
      else if containsSub "/sports/mens-soccer".data team_url.data ||
          containsSub "/sports/m-soccer".data team_url.data then "default"
      else "default"
    else "default"

end Soccer

namespace Soccer

/-! ## Single-team scrape drivers

HTTP fetching is abstracted: a `FetchOracle` maps a URL to a status
and a parsed document, a `JSOracle` maps a URL to the rendered
document (`none` when `shot-scraper` fails).  Each driver returns the
extracted players together with the ordered list of roster-page URLs
it requested.  The Kentucky bio-page enrichment (team 334) is a
parameter; its per-player detail fetches are not roster-page
requests. -/

structure FetchResp where
  status : Nat
  doc : Doc

abbrev FetchOracle := String → FetchResp
abbrev JSOracle := String → Option Doc

structure TeamInput where
  team_id : Nat
  team_name : String
  base_url : String
  season : String
  division : String
  domain : String

/-- The team context a driver hands to the extractors. -/
def TeamInput.ctx (ti : TeamInput) : TeamCtx :=
  ⟨ti.team_id, ti.team_name, ti.season, ti.division, ti.domain⟩

/-- `StandardScraper.scrape_team`: fetch the roster URL; on a 404 try
the season-range alternative once (only when it differs); on any
non-200 outcome return no players.  Request/parse exceptions, caught
by the source's `except` arms, are modelled by the oracle's totality. -/
def scrape_team_std (sub : SubExtractors) (enhance : List Player → List Player)
    (oracle : FetchOracle) (ti : TeamInput) : List Player × List String :=
  let fmt := get_url_format ti.team_id ti.base_url
  let rosterUrl := build_roster_url ti.base_url ti.season fmt
  let r1 := oracle rosterUrl
  let second : Option (String × FetchResp) :=
    if r1.status = 404 then
      let alt := std_season_range_url ti.base_url ti.season
      if alt ≠ rosterUrl then some (alt, oracle alt) else none
    else none
  let respTrace : FetchResp × List String :=
    match second with
    | some ar => (ar.2, [rosterUrl, ar.1])
    | none => (r1, [rosterUrl])
  if respTrace.1.status ≠ 200 then ([], respTrace.2)
  else
    let players := extract_players sub ti.ctx respTrace.1.doc
    (if ti.team_id = 334 then enhance players else players, respTrace.2)

/-- The validate-and-retry tail of `JSScraper.scrape_team`, applied to
the document obtained for the roster URL (with `trace` the URLs
requested so far): validate; on failure try the season-range
alternative once (only when it differs), keeping its players only if
they validate; else no players. -/
def scrapeJsValidated (sub : SubExtractors) (jsOracle : JSOracle)
    (ti : TeamInput) (rosterUrl : String) (doc : Doc) (trace : List String) :
    List Player × List String :=
  let players := extract_players sub ti.ctx doc
  if validate_players players then (players, trace)
  else
    let alt := js_season_range_url ti.base_url ti.season
    if alt ≠ rosterUrl then
      match jsOracle alt with
      | some docAlt =>
        let playersAlt := extract_players sub ti.ctx docAlt
        if validate_players playersAlt then (playersAlt, trace ++ [alt])
        else ([], trace ++ [alt])
      | none => ([], trace ++ [alt])
    else ([], trace)

/-- `JSScraper.scrape_team`: render the roster URL (falling back to a
plain fetch of the same URL when rendering fails), then validate and
possibly retry once. -/
def scrape_team_js (sub : SubExtractors) (jsOracle : JSOracle)
    (oracle : FetchOracle) (ti : TeamInput) : List Player × List String :=
  let fmt := get_url_format ti.team_id ti.base_url
  let rosterUrl := build_roster_url ti.base_url ti.season fmt
  match jsOracle rosterUrl with
  | some doc => scrapeJsValidated sub jsOracle ti rosterUrl doc [rosterUrl]
  | none =>
    let r := oracle rosterUrl
    if r.status = 200 then
      scrapeJsValidated sub jsOracle ti rosterUrl r.doc [rosterUrl, rosterUrl]
    else ([], [rosterUrl, rosterUrl])

end Soccer

namespace Soccer

/-! ## The no-template-matches condition (for the fallback behaviour)

`noTemplateMatch doc` states that none of the template checks of
`_extract_players` finds a matching container and that no table has
roster-like headers, i.e. every rule of the dispatch chain fails. -/

def noTemplateMatch (doc : Doc) : Bool :=
  doc.sidearmPlayers.isEmpty && doc.sidearmListItems.isEmpty &&
  !doc.hasDataFieldTable && !doc.hasModRosterTable && !doc.hasKentuckyTable &&
  (doc.prestoRows.all fun r => r.cells.isEmpty) &&
  doc.personCards.isEmpty && doc.wmtItems.isEmpty &&
  doc.wordpressItems.isEmpty &&
  (doc.tables.all fun t => t.sRows.isEmpty && !hasRosterHeaders t)

/-! ## Concrete fixtures used to instantiate the theorems -/

/-- A team context. -/
def ctxUNC : TeamCtx := ⟨457, "North Carolina", "2025", "I", "goheels.com"⟩

/-- A roster item whose name heading exists but has empty text. -/
def itemEmptyName : SidearmItem :=
  { jerseyText := some "7", nameElem := some ⟨"", none⟩, posText := some "GK" }

/-- A well-formed roster item. -/
def itemNamed : SidearmItem :=
  { jerseyText := some "9",
    nameElem := some ⟨"John Smith", some ⟨"John Smith", "/sports/mens-soccer/roster/john-smith"⟩⟩,
    posText := some "Midfielder", yearText := some "Fr." }

/-- Sub-extractors that find nothing. -/
def subEmpty : SubExtractors where
  fromListItems _ _ := []
  fromDataFieldTable _ _ := []
  fromGenericRosterTable _ _ := []
  fromKentuckyTable _ _ := []
  fromCards _ _ := []
  fromWmt _ _ := []
  fromWordpress _ _ := []

/-- A junk player record. -/
def junkPlayer : Player :=
  { team_id := 0, team := "junk", season := "junk", division := "junk" }

/-- Sub-extractors that always return a junk record. -/
def subJunk : SubExtractors where
  fromListItems _ _ := [junkPlayer]
  fromDataFieldTable _ _ := [junkPlayer]
  fromGenericRosterTable _ _ := [junkPlayer]
  fromKentuckyTable _ _ := [junkPlayer]
  fromCards _ _ := [junkPlayer]
  fromWmt _ _ := [junkPlayer]
  fromWordpress _ _ := [junkPlayer]

/-- A document in which no template rule matches: its only table is a
schedule-like table without roster headers, and its rows carry no
`data-label` cells. -/
def docNoMatch : Doc :=
  { prestoRows := [{ cells := [], nameTh := none }],
    tables := [{ theadPresent := false,
                 rows := [⟨[⟨"Date", none⟩, ⟨"Opponent", none⟩, ⟨"Result", none⟩]⟩,
                          ⟨[⟨"9/1", none⟩, ⟨"Duke", none⟩, ⟨"2-1", none⟩]⟩] }] }

/-- A document carrying Sidearm roster items plus decoy containers for
other templates. -/
def docSidearm : Doc :=
  { sidearmPlayers := [itemNamed],
    wmtItems := [⟨"decoy"⟩],
    personCards := [⟨"decoy"⟩],
    hasKentuckyTable := true }

/-- Same Sidearm items, different other containers. -/
def docSidearm' : Doc :=
  { sidearmPlayers := [itemNamed],
    wordpressItems := [⟨"other decoy"⟩],
    hasDataFieldTable := true }

/-- Team input for Emory and Henry (team 216, `msoc_season_range`
format, base URL without `/index`). -/
def tiWasps : TeamInput :=
  ⟨216, "Emory and Henry", "https://gowasps.com/sports/msoc", "2025", "II",
   "gowasps.com"⟩

/-- Team input for a default-format team. -/
def tiUNC : TeamInput :=
  ⟨457, "North Carolina", "https://goheels.com/sports/mens-soccer", "2025", "I",
   "goheels.com"⟩

/-- An oracle whose every response is a 404. -/
def oracle404 : FetchOracle := fun _ => ⟨404, {}⟩

/-- An oracle serving `docNoMatch` with status 200 everywhere. -/
def oracleNoMatch : FetchOracle := fun _ => ⟨200, docNoMatch⟩

/-- A JS oracle whose rendering always fails. -/
def jsOracleNone : JSOracle := fun _ => none

/-- A fully populated player record. -/
def samplePlayer : Player :=
  { team_id := 457, team := "North Carolina", season := "2025", division := "I",
    name := "John Smith", jersey := "9", position := "M", year := "Freshman" }

/-- The record `extractSidearmItem` produces from `itemNamed`. -/
def namedPlayer : Player :=
  { team_id := 457, team := "North Carolina", season := "2025", division := "I",
    name := "John Smith", jersey := "9", position := "M", year := "Freshman",
    url := "https://goheels.com/sports/mens-soccer/roster/john-smith" }

/-- A presto row whose name cell holds the literal text `null`. -/
def prestoNullRow : PrestoRow :=
  { cells := [⟨"Name", "null", []⟩, ⟨"No.", "7", []⟩, ⟨"Pos.", "GK", []⟩],
    nameTh := none }

/-- A presto row with a name header and three labelled cells. -/
def prestoRowSample : PrestoRow :=
  { cells := [⟨"No.", "5", []⟩, ⟨"Pos.", "GK", []⟩, ⟨"Ht.", "6-2", []⟩],
    nameTh := some ⟨"Name", "Jane Doe", [⟨"Jane Doe", some "/roster/jane-doe"⟩]⟩ }

end Soccer

namespace Soccer

/-! ## Supporting lemmas -/

theorem dropCI_length_le {ks s r : List Char} (h : dropCI ks s = some r) :
    r.length ≤ s.length := by
  induction ks generalizing s with
  | nil => simp [dropCI] at h; simp [h]
  | cons k ks ih =>
    cases s with
    | nil => simp [dropCI] at h
    | cons c cs =>
      simp only [dropCI] at h
      split at h
      · exact Nat.le_succ_of_le (ih h)
      · exact absurd h (by simp)

theorem dropCI_length_lt {k : Char} {ks s r : List Char}
    (h : dropCI (k :: ks) s = some r) : r.length < s.length := by
  cases s with
  | nil => simp [dropCI] at h
  | cons c cs =>
    simp only [dropCI] at h
    split at h
    · exact Nat.lt_succ_of_le (dropCI_length_le h)
    · exact absurd h (by simp)

theorem dropDotOpt_length_le (b : Bool) (r : List Char) :
    (dropDotOpt b r).length ≤ r.length := by
  unfold dropDotOpt
  split
  · split
    · split <;> simp
    · exact Nat.le_refl _
  · exact Nat.le_refl _

theorem length_dropWhile_le (p : Char → Bool) (l : List Char) :
    (l.dropWhile p).length ≤ l.length := by
  induction l with
  | nil => simp [List.dropWhile]
  | cons c cs ih =>
    simp only [List.dropWhile]
    split
    · exact Nat.le_succ_of_le ih
    · exact Nat.le_refl _

theorem dropColonWs_length_lt {r t : List Char} (h : dropColonWs r = some t) :
    t.length < r.length := by
  unfold dropColonWs at h
  split at h
  · cases h
    exact Nat.lt_succ_of_le (length_dropWhile_le _ _)
  · exact absurd h (by simp)

theorem matchLabelAt_length {p : LabelPat} {s r : List Char}
    (h : matchLabelAt p s = some r) : r.length < s.length := by
  unfold matchLabelAt at h
  split at h
  · exact absurd h (by simp)
  · rename_i hk
    cases hd : dropCI p.key s with
    | none => rw [hd] at h; exact absurd h (by simp)
    | some r1 =>
      rw [hd] at h
      have hr1 : r1.length < s.length := by
        cases hk' : p.key with
        | nil => rw [hk'] at hk; simp at hk
        | cons k ks => rw [hk'] at hd; exact dropCI_length_lt hd
      calc r.length < (dropDotOpt p.dotOpt r1).length := dropColonWs_length_lt h
        _ ≤ r1.length := dropDotOpt_length_le _ _
        _ < s.length := hr1

end Soccer

namespace Soccer

/-- `dropExact` only consumes characters. -/
theorem dropExact_length_le {ps s r : List Char} (h : dropExact ps s = some r) :
    r.length ≤ s.length := by
  induction ps generalizing s with
  | nil => simp [dropExact] at h; simp [h]
  | cons p ps ih =>
    cases s with
    | nil => simp [dropExact] at h
    | cons c cs =>
      simp only [dropExact] at h
      split at h
      · exact Nat.le_succ_of_le (ih h)
      · exact absurd h (by simp)

end Soccer

namespace Soccer

/-! ## C10: the validation scorer on the empty record list -/

/-- C10: `JSScraper._validate_players` is total and returns failure on
an empty record list through its initial `if not players` guard, before
any coverage fraction (and hence any division by the record count) is
computed. -/
theorem validate_players_empty_fail : validate_players [] = false := rfl

/-! ## C5: the validation scorer's coverage thresholds -/

/-- C5: for every non-empty record list, `_validate_players` passes
exactly when name and jersey coverage are each at least 80% and
position and academic-year coverage are each at least 70% of the
records (fractions stated exactly: `80 * total ≤ 100 * count` is
`count/total ≥ 80%`). -/
theorem validate_players_pass_iff (ps : List Player) (h : ps ≠ []) :
    validate_players ps = true ↔
      (80 * ps.length ≤ 100 * countField ps (fun p => p.name) ∧
       80 * ps.length ≤ 100 * countField ps (fun p => p.jersey) ∧
       70 * ps.length ≤ 100 * countField ps (fun p => p.position) ∧
       70 * ps.length ≤ 100 * countField ps (fun p => p.year)) := by
  unfold validate_players
  rw [if_neg (by simpa [List.isEmpty_iff] using h)]
  simp only []
  split_ifs <;> simp_all

/-- Witness for C5: a single fully populated record passes validation. -/
theorem validate_players_pass_iff_witness :
    validate_players [samplePlayer] = true :=
  (validate_players_pass_iff [samplePlayer] (by decide)).mpr (by decide)

end Soccer

namespace Soccer

/-- A table row that yields a record yields one with a non-empty,
non-`null` name (the `if not name or name.lower() == 'null': continue`
guard). -/
theorem extractTableRow_name_ne {ctx : TeamCtx} {hm : HeaderMap} {row : TRow}
    {p : Player} (h : extractTableRow ctx hm row = some p) :
    p.name ≠ "" ∧ lowerStr p.name ≠ "null" := by
  unfold extractTableRow at h
  split at h
  · exact absurd h (by simp)
  · split at h
    · exact absurd h (by simp)
    · split at h
      · exact absurd h (by simp)
      · rename_i hguard
        push_neg at hguard
        split at h
        · cases h
          exact hguard
        · exact absurd h (by simp)

/-- A presto row that yields a record yields one with a non-empty name
(the `if not name: continue` guard). -/
theorem extractPrestoRow_name_ne {ctx : TeamCtx} {row : PrestoRow}
    {p : Player} (h : extractPrestoRow ctx row = some p) :
    p.name ≠ "" := by
  unfold extractPrestoRow at h
  split at h
  · exact absurd h (by simp)
  · simp only [] at h
    split at h
    · exact absurd h (by simp)
    · rename_i hguard
      cases h
      exact hguard

end Soccer

namespace Soccer

/-! ## C1: the non-empty-name invariant of the extractors -/

/-- C1 counterexample: the Sidearm list extractor
(`StandardScraper._extract_players`) emits a record with an empty
`name` when an item's `h3`/`h2` heading exists but its text is empty,
even though jersey and position were parsed — the loop only skips an
item when the heading element is absent, not when the extracted name
is empty. -/
theorem sidearm_extract_emits_empty_name :
    ∃ p ∈ extractSidearmList ctxUNC [itemEmptyName],
      p.name = "" ∧ p.jersey = "7" ∧ p.position = "GK" := by decide

/-- C1 (amended): every record emitted by the Sidearm list extractor
comes from an item whose name heading (`h3`/`h2`) is present — an item
with no heading is never emitted, even when jersey or position parsed —
and its `name` is the cleaned text of that heading (anchor text when an
anchor exists), which may be empty.  The header-aware table extractor
guarantees a name that is non-empty and, lower-cased, not `null`; the
PrestoSports extractor guarantees only a non-empty name (its guard is
`if not name:` with no `null` check, and it does emit a row whose name
is the literal `null`). -/
theorem extractors_name_policy :
    (∀ (ctx : TeamCtx) (it : SidearmItem),
      (extractSidearmItem ctx it).isSome = it.nameElem.isSome) ∧
    (∀ (ctx : TeamCtx) (items : List SidearmItem) (p : Player),
      p ∈ extractSidearmList ctx items →
      ∃ it ∈ items, ∃ ne, it.nameElem = some ne ∧
        p.name = clean_text ((ne.link.map fun l => l.text).getD ne.text)) ∧
    (∀ (ctx : TeamCtx) (hm : HeaderMap) (row : TRow) (p : Player),
      extractTableRow ctx hm row = some p →
      p.name ≠ "" ∧ lowerStr p.name ≠ "null") ∧
    (∀ (ctx : TeamCtx) (row : PrestoRow) (p : Player),
      extractPrestoRow ctx row = some p → p.name ≠ "") ∧
    (∃ p ∈ extractPresto ctxUNC [prestoNullRow], p.name = "null") := by
  refine ⟨?_, ?_, ?_, ?_, ?_⟩
  · intro ctx it
    cases hne : it.nameElem with
    | none => simp [extractSidearmItem, hne]
    | some ne => cases ne.link <;> simp [extractSidearmItem, hne]
  · intro ctx items p hp
    obtain ⟨it, hit, hsome⟩ := List.mem_filterMap.mp hp
    cases hne : it.nameElem with
    | none => rw [extractSidearmItem, hne] at hsome; exact absurd hsome (by simp)
    | some ne =>
      refine ⟨it, hit, ne, hne, ?_⟩
      rw [extractSidearmItem, hne] at hsome
      simp only [] at hsome
      cases hsome
      cases hl : ne.link <;> simp [hl]
  · intro ctx hm row p h
    exact extractTableRow_name_ne h
  · intro ctx row p h
    exact extractPrestoRow_name_ne h
  · decide

/-- Witness for C1 (amended): instantiated on a well-formed item, on a
table row and on a presto row. -/
theorem extractors_name_policy_witness :
    (∃ it ∈ [itemNamed], ∃ ne, it.nameElem = some ne ∧
      namedPlayer.name = clean_text ((ne.link.map fun l => l.text).getD ne.text)) ∧
    ({ team_id := 457, team := "North Carolina", season := "2025", division := "I",
       name := "Jane Doe", jersey := "5", position := "GK", height := "6-2",
       url := "https://goheels.com/roster/jane-doe" } : Player).name ≠ "" :=
  ⟨extractors_name_policy.2.1 ctxUNC [itemNamed] namedPlayer (by decide),
   extractors_name_policy.2.2.2.1 ctxUNC prestoRowSample _ (by decide)⟩

end Soccer

namespace Soccer

/-! ## C7: detection short-circuits on the primary list-item marker -/

/-- C7: when `li.sidearm-roster-player` items are present, the
dispatcher applies the Sidearm list extractor immediately, and its
result depends on nothing else: any two documents with the same items
— whatever their other containers — and any two sub-extractor
implementations produce the same records, so none of the remaining
template checks is run. -/
theorem sidearm_detection_short_circuit
    (sub sub' : SubExtractors) (ctx : TeamCtx) (doc doc' : Doc)
    (hne : doc.sidearmPlayers ≠ [])
    (heq : doc.sidearmPlayers = doc'.sidearmPlayers) :
    extract_players sub ctx doc = extractSidearmList ctx doc.sidearmPlayers ∧
    extract_players sub' ctx doc' = extract_players sub ctx doc := by
  have h1 : doc.sidearmPlayers.isEmpty = false := by
    cases hsp : doc.sidearmPlayers with
    | nil => exact absurd hsp hne
    | cons a l => simp
  have h2 : doc'.sidearmPlayers.isEmpty = false := heq ▸ h1
  constructor
  · unfold extract_players
    rw [h1]
    simp
  · unfold extract_players
    rw [h1, h2]
    simp [heq]

/-- Witness for C7: two documents sharing the Sidearm items but
differing in every other container, under different sub-extractors,
yield the same records. -/
theorem sidearm_detection_short_circuit_witness :
    extract_players subEmpty ctxUNC docSidearm =
      extractSidearmList ctxUNC docSidearm.sidearmPlayers ∧
    extract_players subJunk ctxUNC docSidearm' =
      extract_players subEmpty ctxUNC docSidearm :=
  sidearm_detection_short_circuit subEmpty subJunk ctxUNC docSidearm docSidearm'
    (by decide) (by decide)

end Soccer

namespace Soccer

/-- `String.append` on the character lists. -/
theorem strData_append (a b : String) : (a ++ b).data = a.data ++ b.data := by
  cases a; cases b; rfl

theorem strAppend_assoc (a b c : String) : a ++ b ++ c = a ++ (b ++ c) := by
  cases a; cases b; cases c
  show String.mk _ = String.mk _
  rw [List.append_assoc]

theorem startsWithL_append_self (p rest : List Char) :
    startsWithL p (p ++ rest) = true := by
  induction p with
  | nil => rfl
  | cons c cs ih => simp [startsWithL, ih]

/-- Any string of the form `https://…` starts with `https://`. -/
theorem startsWith_https (x : String) :
    startsWithL "https://".data ("https://" ++ x).data = true := by
  rw [strData_append]
  exact startsWithL_append_self _ _

/-! ## C9: profile URLs are empty or absolute -/

/-- C9: every record the Sidearm list extractor or the PrestoSports
extractor emits carries either an empty profile URL or one produced by
the href-resolution rule; that rule passes an href already starting
with `http` through unchanged and otherwise joins it to the team's
domain, yielding a URL that starts with `https://`. -/
theorem profile_url_resolution :
    (∀ (ctx : TeamCtx) (items : List SidearmItem) (p : Player),
      p ∈ extractSidearmList ctx items →
      p.url = "" ∨ ∃ h, p.url = resolveHref ctx.domain h) ∧
    (∀ (ctx : TeamCtx) (rows : List PrestoRow) (p : Player),
      p ∈ extractPresto ctx rows →
      p.url = "" ∨ ∃ h, p.url = resolveHrefPresto ctx.domain h) ∧
    (∀ (dom href : String), startsWithL "http".data href.data = true →
      resolveHref dom href = href ∧ resolveHrefPresto dom href = href) ∧
    (∀ (dom href : String), startsWithL "http".data href.data = false →
      startsWithL "https://".data (resolveHref dom href).data = true ∧
      startsWithL "https://".data (resolveHrefPresto dom href).data = true) := by
  refine ⟨?_, ?_, ?_, ?_⟩
  · intro ctx items p hp
    obtain ⟨it, hit, hsome⟩ := List.mem_filterMap.mp hp
    cases hne : it.nameElem with
    | none => rw [extractSidearmItem, hne] at hsome; exact absurd hsome (by simp)
    | some ne =>
      rw [extractSidearmItem, hne] at hsome
      simp only [] at hsome
      cases hsome
      cases hl : ne.link with
      | none => left; simp [hl]
      | some l => right; exact ⟨l.href, by simp [hl]⟩
  · intro ctx rows p hp
    obtain ⟨row, hrow, hsome⟩ := List.mem_filterMap.mp hp
    unfold extractPrestoRow at hsome
    split at hsome
    · exact absurd hsome (by simp)
    · simp only [] at hsome
      split at hsome
      · exact absurd hsome (by simp)
      · cases hsome
        cases hlink : prestoNameLink row (prestoRowDict row)
            ((dictGet (prestoRowDict row) "name").getD "") with
        | none => left; simp [hlink]
        | some a =>
          cases hhref : a.href with
          | none => left; simp [hlink, hhref]
          | some h => right; exact ⟨h, by simp [hlink, hhref]⟩
  · intro dom href h
    unfold resolveHref resolveHrefPresto
    rw [if_pos h, if_pos h]
    exact ⟨rfl, rfl⟩
  · intro dom href h
    constructor
    · unfold resolveHref
      rw [if_neg (by simp [h])]
      split
      · rw [strAppend_assoc]
        exact startsWith_https _
      · rw [strAppend_assoc, strAppend_assoc]
        exact startsWith_https _
    · unfold resolveHrefPresto extract_base_url
      rw [if_neg (by simp [h]), strAppend_assoc]
      exact startsWith_https _

/-- Witness for C9: a relative href resolved on a concrete item, and
the two resolution laws at concrete hrefs. -/
theorem profile_url_resolution_witness :
    (namedPlayer.url = "" ∨
      ∃ h, namedPlayer.url = resolveHref ctxUNC.domain h) ∧
    (resolveHref "goheels.com" "http://x.org/p" = "http://x.org/p" ∧
      resolveHrefPresto "goheels.com" "http://x.org/p" = "http://x.org/p") ∧
    startsWithL "https://".data (resolveHref "goheels.com" "roster/a").data = true :=
  ⟨profile_url_resolution.1 ctxUNC [itemNamed] namedPlayer (by decide),
   profile_url_resolution.2.2.1 "goheels.com" "http://x.org/p" (by decide),
   (profile_url_resolution.2.2.2 "goheels.com" "roster/a" (by decide)).1⟩

end Soccer

namespace Soccer

theorem mem_takeWhile_pred {q : Char → Bool} {l : List Char} {c : Char}
    (h : c ∈ l.takeWhile q) : q c = true := by
  induction l with
  | nil => simp [List.takeWhile] at h
  | cons a as ih =>
    simp only [List.takeWhile] at h
    split at h
    · rcases List.mem_cons.mp h with h | h
      · subst h; assumption
      · exact ih h
    · simp at h

/-- `digits12Bdry` yields one or two digit characters. -/
theorem digits12Bdry_spec {s d : List Char} (h : digits12Bdry s = some d) :
    (d.length = 1 ∨ d.length = 2) ∧ ∀ c ∈ d, c.isDigit = true := by
  unfold digits12Bdry at h
  split at h
  · exact absurd h (by simp)
  · rename_i d1
    split at h
    · cases h
      rename_i hd1
      exact ⟨Or.inl rfl, by simpa using hd1⟩
    · exact absurd h (by simp)
  · rename_i d1 d2 rest
    split at h
    · rename_i hd1
      split at h
      · rename_i hd2
        split at h
        · cases h
          exact ⟨Or.inr rfl, by simp [hd1, hd2]⟩
        · exact absurd h (by simp)
      · split at h
        · cases h
          exact ⟨Or.inl rfl, by simp [hd1]⟩
        · exact absurd h (by simp)
    · exact absurd h (by simp)

/-- The `Jersey Number` pattern captures a non-empty digit run. -/
theorem jerseyP1At_digits {s d : List Char} (h : jerseyP1At s = some d) :
    d ≠ [] ∧ ∀ c ∈ d, c.isDigit = true := by
  unfold jerseyP1At at h
  split at h
  · exact absurd h (by simp)
  · simp only [] at h
    split at h
    · split at h
      · exact absurd h (by simp)
      · rename_i hne
        cases h
        exact ⟨by simpa [List.isEmpty_iff] using hne, fun c hc => mem_takeWhile_pred hc⟩
    · exact absurd h (by simp)

/-- The `#` pattern captures one or two digits. -/
theorem jerseyP2At_spec {s d : List Char} (h : jerseyP2At s = some d) :
    (d.length = 1 ∨ d.length = 2) ∧ ∀ c ∈ d, c.isDigit = true := by
  unfold jerseyP2At at h
  split at h
  · exact digits12Bdry_spec h
  · exact absurd h (by simp)

/-- The `No.` pattern captures one or two digits. -/
theorem jerseyP3At_spec {s d : List Char} (h : jerseyP3At s = some d) :
    (d.length = 1 ∨ d.length = 2) ∧ ∀ c ∈ d, c.isDigit = true := by
  unfold jerseyP3At at h
  split at h
  · exact absurd h (by simp)
  · exact digits12Bdry_spec h

/-- The bare-number pattern captures one or two digits. -/
theorem jerseyP4At_spec {s d : List Char} (h : jerseyP4At s = some d) :
    (d.length = 1 ∨ d.length = 2) ∧ ∀ c ∈ d, c.isDigit = true := by
  unfold jerseyP4At at h
  split at h
  · exact absurd h (by simp)
  · rename_i d1 rest
    split at h
    · exact absurd h (by simp)
    · rename_i hd1
      split at h
      · exact absurd h (by simp)
      · rename_i d2 rest2
        split at h
        · rename_i hd2
          split at h
          · cases h
            refine ⟨Or.inr rfl, ?_⟩
            simp only [Bool.not_eq_true'] at hd1
            simp [hd2]
            simpa using hd1
          · exact absurd h (by simp)
        · split at h
          · cases h
            refine ⟨Or.inl rfl, ?_⟩
            simp only [Bool.not_eq_true'] at hd1
            simpa using hd1
          · exact absurd h (by simp)

/-- Lift a per-position property through the `re.search` scan. -/
theorem reSearch_lift {P : List Char → Prop}
    {f : List Char → Option (List Char)}
    (hf : ∀ t d, f t = some d → P d) :
    ∀ s d, reSearch f s = some d → P d := by
  intro s
  induction s with
  | nil => intro d h; exact hf [] d h
  | cons c cs ih =>
    intro d h
    unfold reSearch at h
    split at h
    · rename_i r hr
      cases h
      exact hf _ _ hr
    · exact ih d h

/-- Lift a per-position property through the boundary-tracking scan. -/
theorem searchP4_lift {P : List Char → Prop}
    (hf : ∀ t d, jerseyP4At t = some d → P d) :
    ∀ w s d, searchP4 w s = some d → P d := by
  intro w s
  induction s generalizing w with
  | nil => intro d h; simp [searchP4] at h
  | cons c cs ih =>
    intro d h
    unfold searchP4 at h
    split at h
    · rename_i r hr
      cases h
      split at hr
      · exact absurd hr (by simp)
      · exact hf _ _ hr
    · exact ih _ d h

/-! ## C3: jersey numbers are digit strings -/

/-- C3 counterexample: the `Jersey Number` pattern captures `(\d+)`,
an unbounded digit run, so the result is not limited to one or two
digits. -/
theorem jersey_number_three_digits :
    extract_jersey_number "Jersey Number 123" = "123" ∧
    ("123" : String).data.length = 3 := by decide

/-- C3 (amended): `extract_jersey_number` returns the empty string or
a non-empty string of decimal digits; the patterns are tried in fixed
order with the first match winning; the `#`, `No.` and bare-number
patterns capture one or two digits, but the first (`Jersey Number`)
pattern may capture more. -/
theorem extract_jersey_number_digits :
    (∀ s : String, extract_jersey_number s = "" ∨
      ((extract_jersey_number s).data ≠ [] ∧
       ∀ c ∈ (extract_jersey_number s).data, c.isDigit = true)) ∧
    (∀ s d, reSearch jerseyP2At s = some d → (d.length = 1 ∨ d.length = 2)) ∧
    (∀ s d, reSearch jerseyP3At s = some d → (d.length = 1 ∨ d.length = 2)) ∧
    (∀ w s d, searchP4 w s = some d → (d.length = 1 ∨ d.length = 2)) := by
  refine ⟨?_, ?_, ?_, ?_⟩
  · intro s
    have key : extract_jersey_numberL s.data = [] ∨
        (extract_jersey_numberL s.data ≠ [] ∧
         ∀ c ∈ extract_jersey_numberL s.data, c.isDigit = true) := by
      unfold extract_jersey_numberL
      split
      · left; rfl
      · split
        · rename_i d hd
          right
          exact reSearch_lift (fun t d h => jerseyP1At_digits h) s.data d hd
        · split
          · rename_i d hd
            right
            have := reSearch_lift (fun t d h => jerseyP2At_spec h) s.data d hd
            exact ⟨by rcases this.1 with h | h <;> (intro he; rw [he] at h; simp at h),
                  this.2⟩
          · split
            · rename_i d hd
              right
              have := reSearch_lift (fun t d h => jerseyP3At_spec h) s.data d hd
              exact ⟨by rcases this.1 with h | h <;> (intro he; rw [he] at h; simp at h),
                  this.2⟩
            · cases hp4 : searchP4 false s.data with
              | none => left; simp [hp4]
              | some d =>
                right
                have := searchP4_lift (fun t d h => jerseyP4At_spec h) false s.data d hp4
                simp only [hp4, Option.getD_some]
                exact ⟨by rcases this.1 with h | h <;> (intro he; rw [he] at h; simp at h),
                  this.2⟩
    rcases key with hk | hk
    · left
      show (⟨extract_jersey_numberL s.data⟩ : String) = ""
      rw [hk]
    · right
      exact hk
  · exact fun s d h =>
      (reSearch_lift (fun t d h => (jerseyP2At_spec h).1) s d h)
  · exact fun s d h =>
      (reSearch_lift (fun t d h => (jerseyP3At_spec h).1) s d h)
  · exact fun w s d h =>
      (searchP4_lift (fun t d h => (jerseyP4At_spec h).1) w s d h)

/-- Witness for C3 (amended): the `#` pattern on `#7` captures the
single digit `7`. -/
theorem extract_jersey_number_digits_witness :
    (['7'].length = 1 ∨ ['7'].length = 2) :=
  extract_jersey_number_digits.2.1 "#7".data ['7'] (by decide)

end Soccer

namespace Soccer

/-! ## C6: documents matching no template rule yield no records -/

/-- C6: when no template rule matches — no Sidearm list items of
either class, no data-field table, no `mod-roster` table, no
`players-table`, no `data-label` cells, no person cards, no WMT or
WordPress items, and no table with roster-like headers — the dispatch
chain falls through to the table extractor, which finds no roster
table and returns the empty list (for every choice of the unexercised
sub-extractors, which are therefore never invoked); the standard
scrape driver then returns no players, and in the embedding every
function involved is total, so no exception can reach the caller. -/
theorem no_template_empty_result :
    (∀ (sub : SubExtractors) (ctx : TeamCtx) (doc : Doc),
      noTemplateMatch doc = true → extract_players sub ctx doc = []) ∧
    (∀ (sub : SubExtractors) (enhance : List Player → List Player)
        (oracle : FetchOracle) (ti : TeamInput),
      (∀ u, noTemplateMatch (oracle u).doc = true) → enhance [] = [] →
      (scrape_team_std sub enhance oracle ti).1 = []) := by
  have main : ∀ (sub : SubExtractors) (ctx : TeamCtx) (doc : Doc),
      noTemplateMatch doc = true → extract_players sub ctx doc = [] := by
    intro sub ctx doc h
    unfold noTemplateMatch at h
    simp only [Bool.and_eq_true, Bool.not_eq_true', List.all_eq_true] at h
    obtain ⟨⟨⟨⟨⟨⟨⟨⟨⟨h1, h2⟩, h3⟩, h4⟩, h5⟩, h6⟩, h7⟩, h8⟩, h9⟩, h10⟩ := h
    have hany : (doc.prestoRows.any fun r => !r.cells.isEmpty) = false := by
      rw [List.any_eq_false]
      intro r hr
      simp [h6 r hr]
    have hf1 : (doc.tables.find? fun t => !t.sRows.isEmpty) = none := by
      rw [List.find?_eq_none]
      intro t ht
      simp [(h10 t ht).1]
    have hf2 : doc.tables.find? hasRosterHeaders = none := by
      rw [List.find?_eq_none]
      intro t ht
      simp [(h10 t ht).2]
    unfold extract_players
    rw [h1, h2, h3, h4, h5, hany, h7, h8, h9]
    simp only [Bool.not_true, Bool.false_eq_true, if_false]
    unfold extractFromTable
    rw [hf1, hf2]
  refine ⟨main, ?_⟩
  intro sub enhance oracle ti hdocs henh
  have hfin : ∀ (d : Doc) (tr : List String), noTemplateMatch d = true →
      ((if ti.team_id = 334 then enhance (extract_players sub ti.ctx d)
        else extract_players sub ti.ctx d, tr) : List Player × List String).1 =
        [] := by
    intro d tr hd
    rw [main sub ti.ctx d hd]
    split <;> simp [henh]
  unfold scrape_team_std
  simp only []
  by_cases h404 : (oracle (build_roster_url ti.base_url ti.season
      (get_url_format ti.team_id ti.base_url))).status = 404
  · rw [if_pos h404]
    by_cases hne : std_season_range_url ti.base_url ti.season ≠
        build_roster_url ti.base_url ti.season (get_url_format ti.team_id ti.base_url)
    · rw [if_pos hne]
      dsimp only
      split
      · rfl
      · exact hfin _ _ (hdocs _)
    · rw [if_neg hne]
      dsimp only
      split
      · rfl
      · exact hfin _ _ (hdocs _)
  · rw [if_neg h404]
    dsimp only
    split
    · rfl
    · exact hfin _ _ (hdocs _)

/-- Witness for C6: a concrete document whose only table is a
schedule-like table and which carries a labelled-cell-free row. -/
theorem no_template_empty_result_witness :
    extract_players subJunk ctxUNC docNoMatch = [] ∧
    (scrape_team_std subJunk (fun ps => ps) oracleNoMatch tiUNC).1 = [] :=
  ⟨no_template_empty_result.1 subJunk ctxUNC docNoMatch (by decide),
   no_template_empty_result.2 subJunk (fun ps => ps) oracleNoMatch tiUNC
     (fun _ => (by decide : noTemplateMatch docNoMatch = true)) rfl⟩

end Soccer

namespace Soccer

/-! ## C8: at most one alternate-URL retry per team -/

/-- C8 counterexample: for a team whose configured URL format is
already the season-range construction (`msoc_season_range`, e.g. team
216 with a base URL not containing `/index`), the alternative URL
equals the roster URL, so on a 404 the standard scraper constructs the
alternative but performs no second fetch at all — refuting that
"exactly one alternative season-range URL is constructed and fetched"
on every 404. -/
theorem msoc_range_404_no_alternate_fetch :
    (scrape_team_std subEmpty (fun ps => ps) oracle404 tiWasps).2 =
      ["https://gowasps.com/sports/msoc/2025-26/roster"] ∧
    (oracle404 "https://gowasps.com/sports/msoc/2025-26/roster").status = 404 ∧
    std_season_range_url tiWasps.base_url tiWasps.season =
      "https://gowasps.com/sports/msoc/2025-26/roster" ∧
    (scrape_team_std subEmpty (fun ps => ps) oracle404 tiWasps).1 = [] := by
  decide

/-- C8 (amended): per single-team scrape at most one alternate-URL
retry happens.  The standard scraper fetches at most two URLs: the
roster URL and — only on a 404 and only when it differs from the
roster URL — the season-range alternative, exactly once; if the retry
response (or the sole response) is not a 200 the result is empty.  The
JS scraper fetches at most one URL different from the roster URL,
always the season-range alternative, and returns records only when
they passed validation. -/
theorem at_most_one_alternate_retry :
    (∀ (sub : SubExtractors) (enhance : List Player → List Player)
        (oracle : FetchOracle) (ti : TeamInput),
      (scrape_team_std sub enhance oracle ti).2.length ≤ 2 ∧
      (scrape_team_std sub enhance oracle ti).2.head? =
        some (build_roster_url ti.base_url ti.season
          (get_url_format ti.team_id ti.base_url)) ∧
      ((scrape_team_std sub enhance oracle ti).2.tail = [] ∨
        ((scrape_team_std sub enhance oracle ti).2.tail =
            [std_season_range_url ti.base_url ti.season] ∧
         std_season_range_url ti.base_url ti.season ≠
            build_roster_url ti.base_url ti.season
              (get_url_format ti.team_id ti.base_url) ∧
         (oracle (build_roster_url ti.base_url ti.season
            (get_url_format ti.team_id ti.base_url))).status = 404)) ∧
      ((oracle (build_roster_url ti.base_url ti.season
          (get_url_format ti.team_id ti.base_url))).status = 404 →
        (oracle (std_season_range_url ti.base_url ti.season)).status ≠ 200 →
        (scrape_team_std sub enhance oracle ti).1 = [])) ∧
    (∀ (sub : SubExtractors) (jsOracle : JSOracle) (oracle : FetchOracle)
        (ti : TeamInput),
      ((scrape_team_js sub jsOracle oracle ti).2.filter fun u =>
          u ≠ build_roster_url ti.base_url ti.season
            (get_url_format ti.team_id ti.base_url)).length ≤ 1 ∧
      (∀ u ∈ (scrape_team_js sub jsOracle oracle ti).2,
        u = build_roster_url ti.base_url ti.season
          (get_url_format ti.team_id ti.base_url) ∨
        u = js_season_range_url ti.base_url ti.season) ∧
      ((scrape_team_js sub jsOracle oracle ti).1 = [] ∨
        validate_players (scrape_team_js sub jsOracle oracle ti).1 = true)) := by
  constructor
  · intro sub enhance oracle ti
    unfold scrape_team_std
    simp only []
    by_cases h404 : (oracle (build_roster_url ti.base_url ti.season
        (get_url_format ti.team_id ti.base_url))).status = 404
    · rw [if_pos h404]
      by_cases hne : std_season_range_url ti.base_url ti.season ≠
          build_roster_url ti.base_url ti.season (get_url_format ti.team_id ti.base_url)
      · rw [if_pos hne]
        dsimp only
        refine ⟨?_, ?_, ?_, ?_⟩
        · split <;> simp
        · split <;> simp
        · split <;> exact Or.inr ⟨rfl, hne, h404⟩
        · intro _ halt
          rw [if_pos]
          exact halt
      · rw [if_neg hne]
        dsimp only
        refine ⟨?_, ?_, ?_, ?_⟩
        · split <;> simp
        · split <;> simp
        · split <;> exact Or.inl rfl
        · intro _ _
          rw [if_pos]
          intro hc
          rw [hc] at h404
          simp at h404
    · rw [if_neg h404]
      dsimp only
      refine ⟨?_, ?_, ?_, ?_⟩
      · split <;> simp
      · split <;> simp
      · split <;> exact Or.inl rfl
      · intro hc
        exact absurd hc h404
  · intro sub jsOracle oracle ti
    have hchar : ∀ (doc : Doc) (tr : List String),
        ((scrapeJsValidated sub jsOracle ti
            (build_roster_url ti.base_url ti.season
              (get_url_format ti.team_id ti.base_url)) doc tr).2 = tr ∨
          ((scrapeJsValidated sub jsOracle ti
              (build_roster_url ti.base_url ti.season
                (get_url_format ti.team_id ti.base_url)) doc tr).2 =
            tr ++ [js_season_range_url ti.base_url ti.season] ∧
           js_season_range_url ti.base_url ti.season ≠
            build_roster_url ti.base_url ti.season
              (get_url_format ti.team_id ti.base_url))) ∧
        ((scrapeJsValidated sub jsOracle ti
            (build_roster_url ti.base_url ti.season
              (get_url_format ti.team_id ti.base_url)) doc tr).1 = [] ∨
          validate_players (scrapeJsValidated sub jsOracle ti
            (build_roster_url ti.base_url ti.season
              (get_url_format ti.team_id ti.base_url)) doc tr).1 = true) := by
      intro doc tr
      unfold scrapeJsValidated
      dsimp only
      split
      · exact ⟨Or.inl rfl, Or.inr (by assumption)⟩
      · split
        · rename_i hne
          split
          · split
            · exact ⟨Or.inr ⟨rfl, hne⟩, Or.inr (by assumption)⟩
            · exact ⟨Or.inr ⟨rfl, hne⟩, Or.inl rfl⟩
          · exact ⟨Or.inr ⟨rfl, hne⟩, Or.inl rfl⟩
        · exact ⟨Or.inl rfl, Or.inl rfl⟩
    have hru : ∀ u : String, u ∈ [build_roster_url ti.base_url ti.season
        (get_url_format ti.team_id ti.base_url),
        build_roster_url ti.base_url ti.season
          (get_url_format ti.team_id ti.base_url)] ∨
        u ∈ [build_roster_url ti.base_url ti.season
          (get_url_format ti.team_id ti.base_url)] →
        u = build_roster_url ti.base_url ti.season
          (get_url_format ti.team_id ti.base_url) := by
      intro u hu
      rcases hu with hu | hu
      · rcases List.mem_cons.mp hu with h | h
        · exact h
        · exact List.mem_singleton.mp h
      · exact List.mem_singleton.mp hu
    have key : ∀ (doc : Doc) (tr : List String),
        (tr = [build_roster_url ti.base_url ti.season
            (get_url_format ti.team_id ti.base_url)] ∨
         tr = [build_roster_url ti.base_url ti.season
            (get_url_format ti.team_id ti.base_url),
          build_roster_url ti.base_url ti.season
            (get_url_format ti.team_id ti.base_url)]) →
        ((scrapeJsValidated sub jsOracle ti
            (build_roster_url ti.base_url ti.season
              (get_url_format ti.team_id ti.base_url)) doc tr).2.filter
          fun u => u ≠ build_roster_url ti.base_url ti.season
            (get_url_format ti.team_id ti.base_url)).length ≤ 1 ∧
        (∀ u ∈ (scrapeJsValidated sub jsOracle ti
            (build_roster_url ti.base_url ti.season
              (get_url_format ti.team_id ti.base_url)) doc tr).2,
          u = build_roster_url ti.base_url ti.season
            (get_url_format ti.team_id ti.base_url) ∨
          u = js_season_range_url ti.base_url ti.season) ∧
        ((scrapeJsValidated sub jsOracle ti
            (build_roster_url ti.base_url ti.season
              (get_url_format ti.team_id ti.base_url)) doc tr).1 = [] ∨
          validate_players (scrapeJsValidated sub jsOracle ti
            (build_roster_url ti.base_url ti.season
              (get_url_format ti.team_id ti.base_url)) doc tr).1 = true) := by
      intro doc tr htr
      obtain ⟨htrace, hres⟩ := hchar doc tr
      rcases htrace with h2 | ⟨h2, hne⟩
      · rw [h2]
        refine ⟨by rcases htr with h | h <;> subst h <;> simp, ?_, hres⟩
        intro u hu
        rcases htr with h | h <;> subst h
        · exact Or.inl (List.mem_singleton.mp hu)
        · exact Or.inl (hru u (Or.inl hu))
      · rw [h2]
        refine ⟨by rcases htr with h | h <;> subst h <;> simp [hne], ?_, hres⟩
        intro u hu
        rcases List.mem_append.mp hu with h | h
        · rcases htr with h3 | h3 <;> subst h3
          · exact Or.inl (List.mem_singleton.mp h)
          · exact Or.inl (hru u (Or.inl h))
        · exact Or.inr (List.mem_singleton.mp h)
    unfold scrape_team_js
    dsimp only
    split
    · exact key _ _ (Or.inl rfl)
    · split
      · exact key _ _ (Or.inr rfl)
      · dsimp only
        exact ⟨by simp, fun u hu => Or.inl (hru u (Or.inl hu)), Or.inl rfl⟩

/-- Witness for C8 (amended): with every response a 404, the standard
scraper returns no players. -/
theorem at_most_one_alternate_retry_witness :
    (scrape_team_std subEmpty (fun ps => ps) oracle404 tiUNC).1 = [] :=
  (at_most_one_alternate_retry.1 subEmpty (fun ps => ps) oracle404 tiUNC).2.2.2
    (by decide) (by decide)

end Soccer

namespace Soccer

theorem strEta (s : String) : (⟨s.data⟩ : String) = s := by cases s; rfl

theorem splitSlash_cons (c : Char) (cs : List Char) :
    splitSlash (c :: cs) =
      if c = '/' then [] :: splitSlash cs
      else
        match splitSlash cs with
        | p :: rest => (c :: p) :: rest
        | [] => [[c]] := rfl

theorem splitSlash_not_mem {l : List Char} (h : '/' ∉ l) : splitSlash l = [l] := by
  induction l with
  | nil => rfl
  | cons c cs ih =>
    have hc : ¬c = '/' := fun hc => h (hc ▸ List.mem_cons_self c cs)
    have hcs : '/' ∉ cs := fun hm => h (List.mem_cons_of_mem c hm)
    rw [splitSlash_cons, if_neg hc, ih hcs]

theorem splitSlash_append_slash {a rest : List Char} (h : '/' ∉ a) :
    splitSlash (a ++ '/' :: rest) = a :: splitSlash rest := by
  induction a with
  | nil => simp [splitSlash_cons]
  | cons c cs ih =>
    have hc : ¬c = '/' := fun hc => h (hc ▸ List.mem_cons_self c cs)
    have hcs : '/' ∉ cs := fun hm => h (List.mem_cons_of_mem c hm)
    rw [List.cons_append, splitSlash_cons, if_neg hc, ih hcs]

/-! ## C4: hometown / school splitting -/

/-- C4: after the social-media-noise stripping and whitespace
collapsing (which the hypotheses make the identity), a `/`-free input
is entirely hometown; with one `/` the first segment is hometown and
the second is `previous_school` exactly when it contains one of the
institution indicators, else `high_school`; with two `/` the third
segment is always `previous_school` while the second still classifies
only into `high_school`.  In particular
`"Austin, TX / Duke University"` yields
`previous_school = "Duke University"` and an empty `high_school`. -/
theorem parse_hometown_school_spec :
    (∀ s : String, collapseWsL (removeNoiseHSL s.data) = s.data →
      '/' ∉ s.data → parse_hometown_school s = ⟨s, "", ""⟩) ∧
    (∀ a b : String,
      collapseWsL (removeNoiseHSL (a ++ "/" ++ b).data) = (a ++ "/" ++ b).data →
      '/' ∉ a.data → '/' ∉ b.data →
      stripL a.data = a.data → stripL b.data = b.data →
      parse_hometown_school (a ++ "/" ++ b) =
        if collegeIndicators.any fun i => containsSub i.data b.data then
          ⟨a, "", b⟩
        else ⟨a, b, ""⟩) ∧
    (∀ a b c : String,
      collapseWsL (removeNoiseHSL (a ++ "/" ++ b ++ "/" ++ c).data) =
        (a ++ "/" ++ b ++ "/" ++ c).data →
      '/' ∉ a.data → '/' ∉ b.data → '/' ∉ c.data →
      stripL a.data = a.data → stripL b.data = b.data → stripL c.data = c.data →
      parse_hometown_school (a ++ "/" ++ b ++ "/" ++ c) =
        if collegeIndicators.any fun i => containsSub i.data b.data then
          ⟨a, "", c⟩
        else ⟨a, b, c⟩) ∧
    parse_hometown_school "Austin, TX / Duke University" =
      ⟨"Austin, TX", "", "Duke University"⟩ := by
  refine ⟨?_, ?_, ?_, by decide⟩
  · intro s hclean hsl
    unfold parse_hometown_school parse_hometown_schoolL
    split
    · rename_i hnil
      have : s = "" := by cases s; simp_all
      rw [this]
    · rw [hclean]
      rw [if_neg (by simpa using hsl)]
  · intro a b hclean ha hb hsa hsb
    have hdata : (a ++ "/" ++ b).data = a.data ++ '/' :: b.data := by
      rw [strData_append, strData_append]
      simp
    unfold parse_hometown_school parse_hometown_schoolL
    rw [hdata] at hclean ⊢
    rw [if_neg (by simp)]
    rw [hclean]
    rw [if_pos (by simp)]
    rw [splitSlash_append_slash ha, splitSlash_not_mem hb]
    simp only [List.map_cons, List.map_nil, hsa, hsb]
    by_cases hind : (collegeIndicators.any fun i => containsSub i.data b.data) = true
    · rw [if_pos hind]
      simp only [List.head?_cons, Option.getD_some, List.get?_cons_succ,
        List.get?_cons_zero, hind, if_true, List.get?_nil, strEta]
    · rw [if_neg hind]
      simp only [List.head?_cons, Option.getD_some, List.get?_cons_succ,
        List.get?_cons_zero, hind, Bool.false_eq_true, if_false,
        List.get?_nil, strEta]
  · intro a b c hclean ha hb hc hsa hsb hsc
    have hdata : (a ++ "/" ++ b ++ "/" ++ c).data =
        a.data ++ '/' :: (b.data ++ '/' :: c.data) := by
      rw [strData_append, strData_append, strData_append, strData_append]
      simp
    unfold parse_hometown_school parse_hometown_schoolL
    rw [hdata] at hclean ⊢
    rw [if_neg (by simp)]
    rw [hclean]
    rw [if_pos (by simp)]
    rw [splitSlash_append_slash ha, splitSlash_append_slash hb,
      splitSlash_not_mem hc]
    simp only [List.map_cons, List.map_nil, hsa, hsb, hsc]
    by_cases hind : (collegeIndicators.any fun i => containsSub i.data b.data) = true
    · rw [if_pos hind]
      simp only [List.head?_cons, Option.getD_some, List.get?_cons_succ,
        List.get?_cons_zero, hind, if_true, strEta]
    · rw [if_neg hind]
      simp only [List.head?_cons, Option.getD_some, List.get?_cons_succ,
        List.get?_cons_zero, hind, Bool.false_eq_true, if_false, strEta]

/-- Witness for C4: the high-school example from the specification. -/
theorem parse_hometown_school_spec_witness :
    parse_hometown_school ("Chapel Hill, NC" ++ "/" ++ "Chapel Hill High School") =
      ⟨"Chapel Hill, NC", "Chapel Hill High School", ""⟩ := by
  have h := parse_hometown_school_spec.2.1 "Chapel Hill, NC"
    "Chapel Hill High School" (by decide) (by decide) (by decide)
    (by decide) (by decide)
  rw [if_neg (by decide)] at h
  exact h

end Soccer

namespace Soccer

/-! ## C2: properties of the text normalizer -/

/-- C2 counterexample: `clean_text` is not idempotent.  The anchored
`^No\.?:\s*` label pattern is replaced at most once per call (the `^`
anchor matches only at position 0), so `"No:No:7"` cleans to
`"No:7"`, which a second application cleans further to `"7"`. -/
theorem clean_text_not_idempotent :
    clean_text (clean_text "No:No:7") ≠ clean_text "No:No:7" ∧
    clean_text "No:No:7" = "No:7" ∧ clean_text "No:7" = "7" := by decide

theorem hasDoubleWs_cons_iff (x : Char) (l : List Char) :
    hasDoubleWs (x :: l) = false ↔
      (∀ y, l.head? = some y → (isPySpace x && isPySpace y) = false) ∧
      hasDoubleWs l = false := by
  cases l with
  | nil => simp [hasDoubleWs]
  | cons b bs =>
    show (isPySpace x && isPySpace b || hasDoubleWs (b :: bs)) = false ↔ _
    constructor
    · intro h
      rcases Bool.or_eq_false_iff.mp h with ⟨h1, h2⟩
      exact ⟨fun y hy => by cases hy; exact h1, h2⟩
    · intro ⟨h1, h2⟩
      exact Bool.or_eq_false_iff.mpr ⟨h1 b rfl, h2⟩

theorem hasDoubleWs_tail {a : Char} {l : List Char}
    (h : hasDoubleWs (a :: l) = false) : hasDoubleWs l = false :=
  ((hasDoubleWs_cons_iff a l).mp h).2

theorem hasDoubleWs_append_left {a b : List Char}
    (h : hasDoubleWs (a ++ b) = false) : hasDoubleWs a = false := by
  induction a with
  | nil => rfl
  | cons x xs ih =>
    rw [List.cons_append] at h
    obtain ⟨h1, h2⟩ := (hasDoubleWs_cons_iff x (xs ++ b)).mp h
    refine (hasDoubleWs_cons_iff x xs).mpr ⟨?_, ih h2⟩
    intro y hy
    refine h1 y ?_
    cases xs with
    | nil => simp at hy
    | cons z zs => simpa using hy

theorem hasDoubleWs_append_right {a b : List Char}
    (h : hasDoubleWs (a ++ b) = false) : hasDoubleWs b = false := by
  induction a with
  | nil => exact h
  | cons x xs ih => exact ih (hasDoubleWs_tail h)

theorem head?_dropWhile_not {q : Char → Bool} {l : List Char} {a : Char}
    (h : (l.dropWhile q).head? = some a) : q a = false := by
  induction l with
  | nil => simp [List.dropWhile] at h
  | cons c cs ih =>
    simp only [List.dropWhile] at h
    split at h
    · exact ih h
    · cases h
      rename_i hq
      exact Bool.not_eq_true _ ▸ (by simpa using hq)

end Soccer

namespace Soccer

/-- Whitespace collapsing produces no adjacent whitespace, and with the
`prevWs` flag set the output starts with a non-whitespace character. -/
theorem collapseAux_spec : ∀ s : List Char,
    (hasDoubleWs (collapseAux true s) = false ∧
      ∀ a, (collapseAux true s).head? = some a → isPySpace a = false) ∧
    hasDoubleWs (collapseAux false s) = false := by
  intro s
  induction s with
  | nil => exact ⟨⟨rfl, by simp [collapseAux]⟩, rfl⟩
  | cons c cs ih =>
    obtain ⟨⟨ihT, ihTh⟩, ihF⟩ := ih
    by_cases hc : isPySpace c = true
    · refine ⟨⟨?_, ?_⟩, ?_⟩
      · simpa [collapseAux, hc] using ihT
      · intro a ha
        rw [show collapseAux true (c :: cs) = collapseAux true cs by
          simp [collapseAux, hc]] at ha
        exact ihTh a ha
      · rw [show collapseAux false (c :: cs) = ' ' :: collapseAux true cs by
          simp [collapseAux, hc]]
        refine (hasDoubleWs_cons_iff _ _).mpr ⟨?_, ihT⟩
        intro y hy
        simp [ihTh y hy]
    · have hout : ∀ b, collapseAux b (c :: cs) = c :: collapseAux false cs := by
        intro b
        cases b <;> simp [collapseAux, hc]
      refine ⟨⟨?_, ?_⟩, ?_⟩
      · rw [hout true]
        refine (hasDoubleWs_cons_iff _ _).mpr ⟨?_, ihF⟩
        intro y hy
        simp [Bool.eq_false_iff.mpr hc]
      · intro a ha
        rw [hout true] at ha
        cases ha
        exact Bool.eq_false_iff.mpr hc
      · rw [hout false]
        refine (hasDoubleWs_cons_iff _ _).mpr ⟨?_, ihF⟩
        intro y hy
        simp [Bool.eq_false_iff.mpr hc]

/-- `collapseWsL` output has no adjacent whitespace. -/
theorem collapseWsL_noDoub (s : List Char) :
    hasDoubleWs (collapseWsL s) = false :=
  ((collapseAux_spec (rstripL s)).1).1

/-- `rstripL` keeps an initial segment of its input. -/
theorem rstripL_eq_append (s : List Char) :
    ∃ t, s = rstripL s ++ t := by
  refine ⟨(s.reverse.takeWhile isPySpace).reverse, ?_⟩
  unfold rstripL
  conv_lhs =>
    rw [← s.reverse_reverse,
      ← List.takeWhile_append_dropWhile (p := isPySpace) (l := s.reverse),
      List.reverse_append]

/-- `lstripL` keeps a final segment of its input. -/
theorem lstripL_eq_append (s : List Char) :
    ∃ t, s = t ++ lstripL s :=
  ⟨s.takeWhile isPySpace, (List.takeWhile_append_dropWhile ..).symm⟩

theorem rstripL_noDoub {s : List Char} (h : hasDoubleWs s = false) :
    hasDoubleWs (rstripL s) = false := by
  obtain ⟨t, ht⟩ := rstripL_eq_append s
  exact hasDoubleWs_append_left (ht ▸ h)

theorem lstripL_noDoub {s : List Char} (h : hasDoubleWs s = false) :
    hasDoubleWs (lstripL s) = false := by
  obtain ⟨t, ht⟩ := lstripL_eq_append s
  exact hasDoubleWs_append_right (ht ▸ h)

theorem stripL_noDoub {s : List Char} (h : hasDoubleWs s = false) :
    hasDoubleWs (stripL s) = false :=
  lstripL_noDoub (rstripL_noDoub h)

/-- The scan for the first noise phrase returns an initial segment. -/
theorem findNoiseSplit_eq_append {s pre : List Char}
    (h : findNoiseSplit s = some pre) : ∃ t, s = pre ++ t := by
  induction s generalizing pre with
  | nil => simp [findNoiseSplit] at h
  | cons c cs ih =>
    unfold findNoiseSplit at h
    split at h
    · cases h
      exact ⟨c :: cs, rfl⟩
    · cases hf : findNoiseSplit cs with
      | none => rw [hf] at h; exact absurd h (by simp)
      | some pre' =>
        rw [hf] at h
        cases h
        obtain ⟨t, ht⟩ := ih hf
        exact ⟨t, by rw [List.cons_append, ← ht]⟩

theorem removeNoiseL_noDoub {s : List Char} (h : hasDoubleWs s = false) :
    hasDoubleWs (removeNoiseL s) = false := by
  unfold removeNoiseL
  cases hf : findNoiseSplit s with
  | none => exact h
  | some pre =>
    obtain ⟨t, ht⟩ := findNoiseSplit_eq_append hf
    exact rstripL_noDoub (hasDoubleWs_append_left (ht ▸ h))

end Soccer

namespace Soccer

theorem dropCI_eq_append {ks s r : List Char} (h : dropCI ks s = some r) :
    ∃ pre, s = pre ++ r := by
  induction ks generalizing s with
  | nil => simp [dropCI] at h; exact ⟨[], by rw [h]; rfl⟩
  | cons k ks ih =>
    cases s with
    | nil => simp [dropCI] at h
    | cons c cs =>
      simp only [dropCI] at h
      split at h
      · obtain ⟨pre, hpre⟩ := ih h
        exact ⟨c :: pre, by rw [List.cons_append, ← hpre]⟩
      · exact absurd h (by simp)

theorem dropDotOpt_eq_append (b : Bool) (r : List Char) :
    ∃ pre, r = pre ++ dropDotOpt b r := by
  unfold dropDotOpt
  split
  · split
    · split
      · exact ⟨['.'], rfl⟩
      · exact ⟨[], rfl⟩
    · exact ⟨[], rfl⟩
  · exact ⟨[], rfl⟩

theorem dropColonWs_eq_append {r t : List Char} (h : dropColonWs r = some t) :
    ∃ pre, r = pre ++ t := by
  unfold dropColonWs at h
  split at h
  · cases h
    rename_i rest
    exact ⟨':' :: rest.takeWhile isPySpace, by
      rw [List.cons_append, List.takeWhile_append_dropWhile]⟩
  · exact absurd h (by simp)

theorem matchLabelAt_eq_append {p : LabelPat} {s r : List Char}
    (h : matchLabelAt p s = some r) : ∃ pre, s = pre ++ r := by
  unfold matchLabelAt at h
  split at h
  · exact absurd h (by simp)
  · cases hd : dropCI p.key s with
    | none => rw [hd] at h; exact absurd h (by simp)
    | some r1 =>
      rw [hd] at h
      obtain ⟨p1, hp1⟩ := dropCI_eq_append hd
      obtain ⟨p2, hp2⟩ := dropDotOpt_eq_append p.dotOpt r1
      obtain ⟨p3, hp3⟩ := dropColonWs_eq_append h
      exact ⟨p1 ++ (p2 ++ p3), by
        rw [hp1, hp2, hp3]
        simp [List.append_assoc]⟩

/-- A successful label match leaves a remainder that does not start
with whitespace (the `\s*` is consumed greedily). -/
theorem dropColonWs_head {r t : List Char} (h : dropColonWs r = some t) :
    ∀ a, t.head? = some a → isPySpace a = false := by
  unfold dropColonWs at h
  split at h
  · cases h
    exact fun a ha => head?_dropWhile_not ha
  · exact absurd h (by simp)

theorem matchLabelAt_head {p : LabelPat} {s r : List Char}
    (h : matchLabelAt p s = some r) :
    ∀ a, r.head? = some a → isPySpace a = false := by
  unfold matchLabelAt at h
  split at h
  · exact absurd h (by simp)
  · cases hd : dropCI p.key s with
    | none => rw [hd] at h; exact absurd h (by simp)
    | some r1 =>
      rw [hd] at h
      exact dropColonWs_head h

/-- Label substitution preserves the no-adjacent-whitespace property,
and a whitespace character at the head of the output was already at
the head of the input. -/
theorem subLabelAllF_spec (p : LabelPat) :
    ∀ (fuel : Nat) (prevW : Bool) (s : List Char),
      hasDoubleWs s = false →
      hasDoubleWs (subLabelAllF p fuel prevW s) = false ∧
      (∀ a, (subLabelAllF p fuel prevW s).head? = some a →
        isPySpace a = true → s.head? = some a) := by
  intro fuel
  induction fuel with
  | zero => exact fun prevW s h => ⟨h, fun a ha _ => ha⟩
  | succ fuel ih =>
    intro prevW s h
    cases s with
    | nil => exact ⟨rfl, by simp [subLabelAllF]⟩
    | cons c cs =>
      have hemit : ∀ (w : Bool),
          hasDoubleWs (c :: subLabelAllF p fuel w cs) = false ∧
          (∀ a, (c :: subLabelAllF p fuel w cs).head? = some a →
            isPySpace a = true → (c :: cs).head? = some a) := by
        intro w
        obtain ⟨hcs1, hcs2⟩ := (hasDoubleWs_cons_iff c cs).mp h
        obtain ⟨ih1, ih2⟩ := ih w cs hcs2
        constructor
        · refine (hasDoubleWs_cons_iff _ _).mpr ⟨?_, ih1⟩
          intro y hy
          by_cases hys : isPySpace y = true
          · exact hcs1 y (ih2 y hy hys)
          · simp [hys]
        · intro a ha _
          simpa using ha
      unfold subLabelAllF
      split
      · exact hemit _
      · split
        · rename_i rest hrest
          obtain ⟨pre, hpre⟩ := matchLabelAt_eq_append hrest
          have hrd : hasDoubleWs rest = false :=
            hasDoubleWs_append_right (hpre ▸ h)
          obtain ⟨ih1, ih2⟩ := ih false rest hrd
          refine ⟨ih1, ?_⟩
          intro a ha has
          exact absurd (matchLabelAt_head hrest a (ih2 a ha has)) (by simp [has])
        · exact hemit _

theorem subLabelAll_noDoub (p : LabelPat) {s : List Char}
    (h : hasDoubleWs s = false) :
    hasDoubleWs (subLabelAll p false s) = false :=
  (subLabelAllF_spec p s.length false s h).1

theorem subLabelAnchored_noDoub (p : LabelPat) {s : List Char}
    (h : hasDoubleWs s = false) :
    hasDoubleWs (subLabelAnchored p s) = false := by
  unfold subLabelAnchored
  cases hm : matchLabelAt p s with
  | none => exact h
  | some rest =>
    obtain ⟨pre, hpre⟩ := matchLabelAt_eq_append hm
    exact hasDoubleWs_append_right (hpre ▸ h)

theorem labelStep_noDoub {s : List Char} (p : LabelPat)
    (h : hasDoubleWs s = false) : hasDoubleWs (labelStep s p) = false := by
  unfold labelStep
  split
  · exact stripL_noDoub (subLabelAnchored_noDoub p h)
  · exact stripL_noDoub (subLabelAll_noDoub p h)

theorem foldl_labelStep_noDoub : ∀ (pats : List LabelPat) (s : List Char),
    hasDoubleWs s = false →
    hasDoubleWs (pats.foldl labelStep s) = false := by
  intro pats
  induction pats with
  | nil => exact fun s h => h
  | cons p ps ih =>
    intro s h
    exact ih (labelStep s p) (labelStep_noDoub p h)

theorem cleanFieldLabelsL_noDoub {s : List Char}
    (h : hasDoubleWs s = false) :
    hasDoubleWs (cleanFieldLabelsL s) = false := by
  unfold cleanFieldLabelsL
  split
  · exact h
  · exact foldl_labelStep_noDoub labelPats s h

/-- C2 (amended): `clean_text` returns the empty string on empty input
and never produces two adjacent whitespace characters; in the
embedding it is a total function, so it cannot raise.  It is, however,
not idempotent (see the counterexample): the anchored `No:`-style
label prefix is stripped only once per call. -/
theorem clean_text_no_double_ws :
    clean_text "" = "" ∧
    ∀ s : String, hasDoubleWs (clean_text s).data = false := by
  refine ⟨rfl, ?_⟩
  intro s
  show hasDoubleWs (cleanTextL s.data) = false
  unfold cleanTextL
  split
  · rfl
  · exact cleanFieldLabelsL_noDoub (removeNoiseL_noDoub (collapseWsL_noDoub s.data))

end Soccer
